import Mathlib

/-!
# Insulin diffuser system

Shallow embedding of the interrupt handlers of `Microcontroller A/main.c`
(`petDog`, `pumpOn`, `pumpOff`, `UART_ISR`) and of the main loop and the
debounce handler of `Microcontroller B/main.c` (`main`, `Timer2_ISR`,
`DisplayWord`) as pure functions on explicit device states, followed by the
properties proved about them.

The target is an MSP430, so a C `int` is 16 bits wide: every arithmetic
result stored in an `int` goes through `wrap16`. The static `lastPress` only
ever holds a bit mask, and is kept as a natural number.
-/

namespace Insulin

/-! ## Machine integers and device constants -/

/-- Two's-complement reduction of an integer to the range of a 16-bit `int`. -/
def wrap16 (x : Int) : Int := (x + 32768) % 65536 - 32768

/-- The values a 16-bit `int` can hold. -/
def isInt16 (x : Int) : Prop := -32768 ≤ x ∧ x ≤ 32767

instance (x : Int) : Decidable (isInt16 x) := by
  unfold isInt16; infer_instance

/-- Port bit 0 (device header value `0x0001`). -/
def BIT0 : Nat := 0x0001

/-- Port bit 1 (device header value `0x0002`). -/
def BIT1 : Nat := 0x0002

/-- Timer capture/compare interrupt flag (device header value `0x0001`). -/
def CCIFG : Nat := 0x0001

/-- UART receive interrupt flag (device header value `0x0001`). -/
def UCRXIFG : Nat := 0x0001

/-- The source's `#define PETDOG 0x5A0C`, the value written to pet the watchdog. -/
def PETDOG : Nat := 0x5A0C

/-- Bitwise complement of a 16-bit register mask, the C `~m` truncated to 16 bits. -/
def not16 (m : Nat) : Nat := 0xFFFF ^^^ m

/-! ## Device state of Node A -/

/-- The globals, the function-local statics of `petDog`, and the registers
the handlers write. `tx` is the log of bytes written to `UCA0TXBUF`,
oldest first. -/
structure NodeA where
  /-- Global `int level`, the reservoir level. -/
  level : Int
  /-- Global `int numPers`, the remaining 20 ms pump periods. -/
  numPers : Int
  /-- Static `int lastPress` of `petDog`. -/
  lastPress : Nat
  /-- Static `int count` of `petDog`. -/
  count : Int
  /-- Output port register; bit 0 drives the pump. -/
  P1OUT : Nat
  /-- Watchdog control register. -/
  WDTCTL : Nat
  /-- Capture/compare control register of the duty-cycle timer. -/
  TA1CCTL1 : Nat
  /-- UART interrupt flag register. -/
  UCA0IFG : Nat
  /-- Bytes written to `UCA0TXBUF`, oldest first. -/
  tx : List Nat
  deriving DecidableEq, Repr

/-- The initial values given in the source: `level=1500`, `numPers=0`,
`lastPress = BIT1`, `count = 0`. The registers are left to the caller. -/
def NodeA.isPowerOn (s : NodeA) : Prop :=
  s.level = 1500 ∧ s.numPers = 0 ∧ s.lastPress = BIT1 ∧ s.count = 0

/-- The state after `main` has run its setup: pump pin low, pull-up on P1.1. -/
def powerOn : NodeA :=
  { level := 1500, numPers := 0, lastPress := BIT1, count := 0,
    P1OUT := BIT1, WDTCTL := 0, TA1CCTL1 := 0, UCA0IFG := 0, tx := [] }

/-- Whether the pump output pin (P1.0) is driven high. -/
def NodeA.pumpHigh (s : NodeA) : Bool := s.P1OUT &&& BIT0 != 0

/-! ## The interrupt handlers -/

/-- The test `(P1IN ^ lastPress) & BIT1` of `petDog`: the sample opposes the
stored button value. -/
def opposes (lastPress p1in : Nat) : Bool := (p1in ^^^ lastPress) &&& BIT1 != 0

/-- The value of `count` after the conditional assignment of `petDog`. -/
def petDogCount (s : NodeA) (p1in : Nat) : Int :=
  if opposes s.lastPress p1in then wrap16 (s.count + 1) else 0

/-- The guard `count>=5` of `petDog` holds on this tick: the tick commits. -/
def petDogCommits (s : NodeA) (p1in : Nat) : Bool := decide (5 ≤ petDogCount s p1in)

/-- Handler `petDog`: pets the watchdog and debounces the refill button,
sampled from `P1IN`. -/
def petDog (s : NodeA) (p1in : Nat) : NodeA :=
  let s1 := { s with WDTCTL := 0x5A0C }
  let count := if (p1in ^^^ s1.lastPress) &&& BIT1 != 0 then wrap16 (s1.count + 1) else 0
  if 5 ≤ count then
    let lastPress := s1.lastPress ^^^ BIT1
    if lastPress = 0 then
      { s1 with count := 0, lastPress := lastPress, level := 1500 }
    else
      { s1 with count := 0, lastPress := lastPress }
  else
    { s1 with count := count }

/-- Handler `pumpOn`, run on every pump period event. -/
def pumpOn (s : NodeA) : NodeA :=
  if 0 < s.numPers then
    { s with P1OUT := s.P1OUT ||| BIT0, numPers := wrap16 (s.numPers - 1) }
  else s

/-- Handler `pumpOff`, run on every duty-cycle event. -/
def pumpOff (s : NodeA) : NodeA :=
  { s with P1OUT := s.P1OUT &&& not16 BIT0, TA1CCTL1 := s.TA1CCTL1 &&& not16 CCIFG }

/-- Handler `UART_ISR`, run for every received byte `rx` (the content of
`UCA0RXBUF`, an 8-bit value). -/
def UART_ISR (s : NodeA) (rx : Fin 256) : NodeA :=
  let message : Int := rx.val
  let s1 : NodeA :=
    if 0x01 ≤ message ∧ message ≤ 0x7D then
      let s2 := if s.level ≤ 0x7D then { s with tx := s.tx ++ [0xFF] } else s
      let dosage : Int := if message ≤ s2.level then message else s2.level
      { s2 with numPers := wrap16 (s2.numPers + wrap16 (2 * dosage)),
                level := wrap16 (s2.level - dosage) }
    else if message = 0xFF then
      if s.numPers = 0 then
        if s.level < 125 then { s with tx := s.tx ++ [0x03] }
        else if s.level < 625 then { s with tx := s.tx ++ [0x02] }
        else { s with tx := s.tx ++ [0x01] }
      else
        if s.level < 125 then { s with tx := s.tx ++ [0x8A] }
        else if s.level < 625 then { s with tx := s.tx ++ [0x89] }
        else { s with tx := s.tx ++ [0x88] }
    else s
  { s1 with UCA0IFG := s1.UCA0IFG &&& not16 UCRXIFG }

/-! ## Event traces -/

/-- The interrupts Node A serves: a received byte, a pump period event, a
pump duty-cycle event, and a debounce tick carrying the sampled `P1IN`. -/
inductive Event where
  | rx (b : Fin 256)
  | period
  | duty
  | tick (p1in : Nat)
  deriving DecidableEq, Repr

/-- One interrupt, run to completion. -/
def step (s : NodeA) : Event → NodeA
  | .rx b => UART_ISR s b
  | .period => pumpOn s
  | .duty => pumpOff s
  | .tick p => petDog s p

/-- A finite sequence of interrupts, served in order. -/
def run (s : NodeA) (evs : List Event) : NodeA := evs.foldl step s

/-! ## The status table of the protocol -/

/-- The status-byte table as the protocol description words it: the row is
chosen by whether pumping is idle (`numPers == 0`) and by the reservoir tier
(`level ≥ 625`, `125 ≤ level < 625`, `level < 125`). -/
def statusTable (level numPers : Int) : Nat :=
  if numPers = 0 then
    if 625 ≤ level then 0x01 else if 125 ≤ level then 0x02 else 0x03
  else
    if 625 ≤ level then 0x88 else if 125 ≤ level then 0x89 else 0x8A

/-! ## Node B: the exclamation symbol -/

/-- The exclamation symbol of Node B's LCD after one pass of the `while (1)`
loop of `Microcontroller B/main.c` holding `message`: the indicator branch
for a normal status (`0x88`, `0x01`) clears it, and the alert test at the end
of the pass (`message==0xFF`) sets it. `excl` is the symbol before the pass;
`message` is the byte held in `char message`, which is unsigned on this target. -/
def mainLoopExclamation (message : Nat) (excl : Bool) : Bool :=
  let e1 :=
    if message = 0x02 ∨ message = 0x89 then excl
    else if message = 0x88 ∨ message = 0x01 then false
    else excl
  if message = 0xFF then true else e1

/-! ## Debounce runs -/

/-- A sequence of debounce ticks, one per sample of `P1IN`, served in order. -/
def runTicks (s : NodeA) (samples : List Nat) : NodeA := samples.foldl petDog s

/-- The length of the run of consecutive samples, ending with the latest
one, that oppose the button value `v`. -/
def trailingRun (v : Nat) (samples : List Nat) : Nat :=
  (samples.reverse.takeWhile (opposes v)).length

/-- The ticks of a sample sequence at which `petDog` commits, numbered from 1. -/
def commitTicks (s : NodeA) (samples : List Nat) : List Nat :=
  (List.range samples.length).filterMap fun i =>
    if petDogCommits (runTicks s (samples.take i)) (samples.getD i 0) then some (i + 1) else none

/-! ## A trace that accumulates pending pump periods -/

/-- One full drain of the reservoir: twelve dose requests of 125 units. -/
def drain : List Event := List.replicate 12 (Event.rx 125)

/-- A debounced press and release of the refill button: five samples with
P1.1 low, then five with P1.1 high. -/
def pressRelease : List Event :=
  List.replicate 5 (Event.tick 0) ++ List.replicate 5 (Event.tick BIT1)

/-- Ten full drains with a refill before each but the first, a further
refill, and eleven more dose requests of 125 units: 231 interrupts, none of
them a pump period event. -/
def approachTrace : List Event :=
  drain ++ (List.replicate 9 (pressRelease ++ drain)).flatten ++ pressRelease ++
    List.replicate 11 (Event.rx 125)

/-- The trace `approachTrace` followed by one more dose request of 125 units. -/
def overflowTrace : List Event := approachTrace ++ [Event.rx 125]

/-! ## Pump pulses along a trace -/

/-- The interrupt is a pump period event whose handler takes the branch
`numPers > 0`, the one that sets the pump output high. -/
def drivesHigh (s : NodeA) : Event → Bool
  | .period => decide (0 < s.numPers)
  | _ => false

/-- The number of period events of a trace that drive the pump output high. -/
def pulses (s : NodeA) : List Event → Nat
  | [] => 0
  | e :: evs => (if drivesHigh s e then 1 else 0) + pulses (step s e) evs

/-- The number of pump period events of a trace. -/
def periods (evs : List Event) : Nat := evs.count Event.period

/-- The interrupt is a pump period or a pump duty-cycle event. -/
def Event.isPump : Event → Bool
  | .period => true
  | .duty => true
  | _ => false

/-- The interrupt is not a debounce tick, so it cannot refill the reservoir. -/
def Event.notTick : Event → Bool
  | .tick _ => false
  | _ => true

/-- The tick refills the reservoir: `petDog` commits and the toggled
`lastPress` is 0, the guard of `level=1500`. -/
def petDogRefills (s : NodeA) (p1in : Nat) : Bool :=
  petDogCommits s p1in && decide (s.lastPress ^^^ BIT1 = 0)

/-- The ticks of a sample sequence at which `petDog` refills, numbered from 1. -/
def refillTicks (s : NodeA) (samples : List Nat) : List Nat :=
  (List.range samples.length).filterMap fun i =>
    if petDogRefills (runTicks s (samples.take i)) (samples.getD i 0) then some (i + 1) else none

/-! ## Node B -/

/-- Port bit 2 (device header value `0x0004`). -/
def BIT2 : Nat := 0x0004

/-- The local `message` of `main`, the statics of `Timer2_ISR`, the registers
they write, and the display. `tx` is the log of bytes written to
`UCA0TXBUF`, oldest first. -/
structure NodeB where
  /-- Local `char message` of `main`, the last received byte. -/
  message : Nat
  /-- Static `int lastPress` of `Timer2_ISR`. -/
  lastPress : Nat
  /-- Static `int count` of `Timer2_ISR`. -/
  count : Int
  /-- Output port register; bit 0 drives the red LED. -/
  P1OUT : Nat
  /-- Output port register; bit 7 drives the green LED. -/
  P9OUT : Nat
  /-- Watchdog control register. -/
  WDTCTL : Nat
  /-- The exclamation symbol of the LCD. -/
  exclamation : Bool
  /-- The character shown at each position of the LCD (positions 1 to 6). -/
  lcd : Nat → Char
  /-- Bytes written to `UCA0TXBUF`, oldest first. -/
  tx : List Nat

/-- The state when the `while (1)` loop of `main` is entered: `message = 0x01`,
`lastPress = BIT2`, `count = 0`, LEDs off, pull-up on P1.2, watchdog started. -/
def powerOnB : NodeB :=
  { message := 0x01, lastPress := BIT2, count := 0, P1OUT := 0x04, P9OUT := 0,
    WDTCTL := 0x5A0C, exclamation := false, lcd := fun _ => ' ', tx := [] }

/-- The test `(P1IN ^ lastPress) & BIT2` of `Timer2_ISR`. -/
def opposesB (lastPress p1in : Nat) : Bool := (p1in ^^^ lastPress) &&& BIT2 != 0

/-- The value of `count` after the conditional assignment of `Timer2_ISR`. -/
def Timer2Count (s : NodeB) (p1in : Nat) : Int :=
  if opposesB s.lastPress p1in then wrap16 (s.count + 1) else 0

/-- The guard `count>=5` of `Timer2_ISR` holds on this tick: the tick commits. -/
def Timer2Commits (s : NodeB) (p1in : Nat) : Bool := decide (5 ≤ Timer2Count s p1in)

/-- Handler `Timer2_ISR`: pets the watchdog and debounces the manual-dose
button, sampled from `P1IN`. -/
def Timer2_ISR (s : NodeB) (p1in : Nat) : NodeB :=
  let s1 := { s with WDTCTL := 0x5A0C }
  let count := if (p1in ^^^ s1.lastPress) &&& BIT2 != 0 then wrap16 (s1.count + 1) else 0
  if 5 ≤ count then
    let lastPress := s1.lastPress ^^^ BIT2
    if lastPress = 0 then
      { s1 with count := 0, lastPress := lastPress, tx := s1.tx ++ [0x3E] }
    else
      { s1 with count := 0, lastPress := lastPress }
  else
    { s1 with count := count }

/-- A sequence of debounce ticks of Node B, one per sample of `P1IN`. -/
def runTimer2 (s : NodeB) (samples : List Nat) : NodeB := samples.foldl Timer2_ISR s

/-- Modelled from the spec: the character-display driver (`myLCD_showChar`
of `myLcd.h`) is not among the sources; it shows one character at one of the
display positions. -/
def myLCD_showChar (lcd : Nat → Char) (c : Char) (position : Nat) : Nat → Char :=
  Function.update lcd position c

/-- The source's `DisplayWord`. A word of more than 6 characters shows
`ERROR `; otherwise each character is shown at its position. The loop
`for (i = 0; i <= length - 1; ...)` on an `unsigned int` does not end for the
empty word, which the argument `_h` excludes. -/
def DisplayWord (lcd : Nat → Char) (word : List Char) (_h : word ≠ []) : Nat → Char :=
  let length := word.length
  if length ≤ 6 then
    (List.range length).foldl
      (fun l i =>
        let next_char := word.getD i (Char.ofNat 0)
        if next_char ≠ Char.ofNat 0 then myLCD_showChar l next_char (i + 1) else l)
      lcd
  else
    myLCD_showChar (myLCD_showChar (myLCD_showChar (myLCD_showChar (myLCD_showChar
      (myLCD_showChar lcd 'E' 1) 'R' 2) 'R' 3) 'O' 4) 'R' 5) ' ' 6

/-- The six characters the LCD shows. -/
def NodeB.shown (s : NodeB) : List Char := (List.range 6).map fun i => s.lcd (i + 1)

/-- Whether the red LED (P1.0) is on. -/
def NodeB.red (s : NodeB) : Bool := s.P1OUT &&& BIT0 != 0

/-- Whether the green LED (P9.7) is on. -/
def NodeB.green (s : NodeB) : Bool := s.P9OUT &&& 0x80 != 0

/-- The receive test at the top of the loop body: when the receive flag is
set, `message` takes the byte in `UCA0RXBUF` (`rx`). -/
def receiveStage (s : NodeB) (rx : Option (Fin 256)) : NodeB :=
  match rx with
  | some b => { s with message := b.val }
  | none => s

/-- The LED test on `message`: `0x02`/`0x89` turn the red LED on and the green
one off; `0x88`/`0x01` remove the exclamation point, turn the green LED on
and the red one off. -/
def indicatorStage (s : NodeB) : NodeB :=
  if s.message = 0x02 ∨ s.message = 0x89 then
    { s with P1OUT := s.P1OUT ||| BIT0, P9OUT := s.P9OUT &&& not16 0x80 }
  else if s.message = 0x88 ∨ s.message = 0x01 then
    { s with exclamation := false, P9OUT := s.P9OUT ||| 0x80,
             P1OUT := s.P1OUT &&& not16 BIT0 }
  else s

/-- The 1 s timer test: when its flag `ta0` is set, the status request `0xFF`
is sent, and on `0x03`/`0x8A` the red LED is toggled and the green one
turned off. -/
def pollStage (s : NodeB) (ta0 : Bool) : NodeB :=
  if ta0 then
    let t := { s with tx := s.tx ++ [0xFF] }
    if t.message = 0x03 ∨ t.message = 0x8A then
      { t with P1OUT := t.P1OUT ^^^ 0x01, P9OUT := t.P9OUT &&& not16 0x80 }
    else t
  else s

/-- The 60 s timer test: when its flag `ta1` is set, the dose byte `0x14` is sent. -/
def doseStage (s : NodeB) (ta1 : Bool) : NodeB :=
  if ta1 then { s with tx := s.tx ++ [0x14] } else s

/-- The text shown for `message`: `P OFF ` on `0x01`, `0x02`, `0x03`, and
` P ON ` otherwise. -/
def displayStage (s : NodeB) : NodeB :=
  if s.message = 0x01 ∨ s.message = 0x02 ∨ s.message = 0x03 then
    { s with lcd := DisplayWord s.lcd ['P', ' ', 'O', 'F', 'F', ' '] (by decide) }
  else
    { s with lcd := DisplayWord s.lcd [' ', 'P', ' ', 'O', 'N', ' '] (by decide) }

/-- The alert test at the end of the loop body: `0xFF` adds the exclamation point. -/
def alertStage (s : NodeB) : NodeB :=
  if s.message = 0xFF then { s with exclamation := true } else s

/-- One pass of the `while (1)` loop of `main`, its six tests in source
order. `rx` is the byte in `UCA0RXBUF` when the receive flag is set, `ta0`
the flag of the 1 s timer and `ta1` the flag of the 60 s timer, as read in
this pass. -/
def mainLoopPass (s : NodeB) (rx : Option (Fin 256)) (ta0 ta1 : Bool) : NodeB :=
  alertStage (displayStage (doseStage (pollStage (indicatorStage (receiveStage s rx)) ta0) ta1))

/-- The LED branches of the main loop, named after the header comment. -/
inductive Indicator where
  | normal
  | low
  | critical
  | none
  deriving DecidableEq, Repr

/-- The LED branch a held `message` selects: `0x02`/`0x89` the low one,
`0x88`/`0x01` the normal one, `0x03`/`0x8A` the critical one (taken on a 1 s
tick), any other byte none. -/
def indicatorBranch (message : Nat) : Indicator :=
  if message = 0x02 ∨ message = 0x89 then .low
  else if message = 0x88 ∨ message = 0x01 then .normal
  else if message = 0x03 ∨ message = 0x8A then .critical
  else .none

/-- The ticks of a sample sequence at which `Timer2_ISR` transmits, numbered from 1. -/
def transmitTicks (s : NodeB) (samples : List Nat) : List Nat :=
  (List.range samples.length).filterMap fun i =>
    if (Timer2_ISR (runTimer2 s (samples.take i)) (samples.getD i 0)).tx
        ≠ (runTimer2 s (samples.take i)).tx
    then some (i + 1) else none

/-- The debounce states of the two nodes agree: equal counts, and both
stored values released (`BIT1`, `BIT2`) or both pressed (`0`). -/
def sameDebounce (a : NodeA) (b : NodeB) : Prop :=
  a.count = b.count ∧
    ((a.lastPress = BIT1 ∧ b.lastPress = BIT2) ∨ (a.lastPress = 0 ∧ b.lastPress = 0))

/-- The byte `main` holds in `message` during a pass: the received byte when
the receive flag is set, the previous `message` otherwise. -/
def heldMessage (s : NodeB) (rx : Option (Fin 256)) : Nat :=
  match rx with
  | some b => b.val
  | none => s.message

/-! ## Basic facts about the handlers -/

theorem wrap16_eq_self {x : Int} (h : isInt16 x) : wrap16 x = x := by
  unfold isInt16 at h
  unfold wrap16
  omega

theorem isInt16_wrap16 (x : Int) : isInt16 (wrap16 x) := by
  unfold isInt16 wrap16
  omega

/-- The effect of a dose request on the globals, in terms of the clamped dosage. -/
theorem UART_ISR_dose (s : NodeA) (a : Fin 256) (h1 : 1 ≤ a.val) (h2 : a.val ≤ 125) :
    (UART_ISR s a).level = wrap16 (s.level - min (a.val : Int) s.level) ∧
    (UART_ISR s a).numPers
      = wrap16 (s.numPers + wrap16 (2 * min (a.val : Int) s.level)) ∧
    (UART_ISR s a).tx = (if s.level ≤ 125 then s.tx ++ [0xFF] else s.tx) ∧
    (UART_ISR s a).lastPress = s.lastPress ∧ (UART_ISR s a).count = s.count ∧
    (UART_ISR s a).P1OUT = s.P1OUT := by
  have h1i : (1 : Int) ≤ (a.val : Int) := by exact_mod_cast h1
  have h2i : (a.val : Int) ≤ 125 := by exact_mod_cast h2
  have hmin : (if (a.val : Int) ≤ s.level then (a.val : Int) else s.level)
      = min (a.val : Int) s.level := by
    split
    · rw [min_eq_left]; assumption
    · rw [min_eq_right]; omega
  unfold UART_ISR
  simp only [show ((0x01 : Int) ≤ (a.val : Int) ∧ (a.val : Int) ≤ 0x7D) from ⟨h1i, h2i⟩,
    and_self, if_true]
  by_cases hl : s.level ≤ 125
  · simp [hl, hmin]
  · simp [hl, hmin]

/-- The effect of a status query on the globals and on the transmit log. -/
theorem UART_ISR_query (s : NodeA) :
    (UART_ISR s 0xFF).tx = s.tx ++ [statusTable s.level s.numPers] ∧
    (UART_ISR s 0xFF).level = s.level ∧ (UART_ISR s 0xFF).numPers = s.numPers := by
  unfold UART_ISR statusTable
  simp only [show ¬ ((0x01 : Int) ≤ (((0xFF : Fin 256).val : Nat) : Int) ∧
      (((0xFF : Fin 256).val : Nat) : Int) ≤ 0x7D) by decide,
    show ((((0xFF : Fin 256).val : Nat) : Int) = 0xFF) by decide, if_true, if_false]
  by_cases hn : s.numPers = 0 <;> by_cases h1 : s.level < 125 <;>
    by_cases h2 : s.level < 625 <;>
    simp [hn, h1, h2, not_le.mpr, not_lt.mp] <;> omega

/-- C3. Status query: receiving `0xFF` appends exactly one byte to the
transmit log, the one the status table gives for `(numPers == 0, level)`;
that byte is one of the six table entries; `level` and `numPers` are
unchanged. The two scenario states answer `0x88` and `0x03`. -/
theorem status_query_table (s : NodeA) :
    (UART_ISR s 0xFF).tx = s.tx ++ [statusTable s.level s.numPers] ∧
    (s.numPers = 0 → 625 ≤ s.level → statusTable s.level s.numPers = 0x01) ∧
    (s.numPers = 0 → 125 ≤ s.level → s.level < 625 →
      statusTable s.level s.numPers = 0x02) ∧
    (s.numPers = 0 → s.level < 125 → statusTable s.level s.numPers = 0x03) ∧
    (s.numPers ≠ 0 → 625 ≤ s.level → statusTable s.level s.numPers = 0x88) ∧
    (s.numPers ≠ 0 → 125 ≤ s.level → s.level < 625 →
      statusTable s.level s.numPers = 0x89) ∧
    (s.numPers ≠ 0 → s.level < 125 → statusTable s.level s.numPers = 0x8A) ∧
    statusTable s.level s.numPers ∈ [0x01, 0x02, 0x03, 0x88, 0x89, 0x8A] ∧
    (UART_ISR s 0xFF).level = s.level ∧ (UART_ISR s 0xFF).numPers = s.numPers ∧
    (UART_ISR { powerOn with level := 1400, numPers := 200 } 0xFF).tx = [0x88] ∧
    (UART_ISR { powerOn with level := 80, numPers := 0 } 0xFF).tx = [0x03] := by
  obtain ⟨ht, hl, hn⟩ := UART_ISR_query s
  refine ⟨ht, ?_, ?_, ?_, ?_, ?_, ?_, ?_, hl, hn, by decide, by decide⟩
  · intro h0 h; simp [statusTable, h0, h]
  · intro h0 h h'; simp [statusTable, h0, h, not_le.mpr h']
  · intro h0 h
    simp [statusTable, h0, not_le.mpr h, not_le.mpr (lt_trans h (by norm_num : (125 : Int) < 625))]
  · intro h0 h; simp [statusTable, h0, h]
  · intro h0 h h'; simp [statusTable, h0, h, not_le.mpr h']
  · intro h0 h
    simp [statusTable, h0, not_le.mpr h, not_le.mpr (lt_trans h (by norm_num : (125 : Int) < 625))]
  · unfold statusTable
    split <;> split <;> try split
    all_goals simp

/-- C4. Silent drop: a received byte that is `0` or in `126..254` appends
nothing to the transmit log and leaves `level`, `numPers` and the output
port (hence the pump output) unchanged. -/
theorem invalid_byte_dropped (s : NodeA) (b : Fin 256)
    (hb : b.val = 0 ∨ (126 ≤ b.val ∧ b.val ≤ 254)) :
    (UART_ISR s b).tx = s.tx ∧ (UART_ISR s b).level = s.level ∧
    (UART_ISR s b).numPers = s.numPers ∧ (UART_ISR s b).P1OUT = s.P1OUT ∧
    (UART_ISR s b).pumpHigh = s.pumpHigh := by
  have hdose : ¬ ((0x01 : Int) ≤ (b.val : Int) ∧ (b.val : Int) ≤ 0x7D) := by
    rintro ⟨h1, h2⟩
    have h1n : 1 ≤ b.val := by exact_mod_cast h1
    have h2n : b.val ≤ 125 := by exact_mod_cast h2
    omega
  have hq : ¬ ((b.val : Int) = 0xFF) := by
    intro h
    have hn : b.val = 255 := by exact_mod_cast h
    omega
  have hs : UART_ISR s b = { s with UCA0IFG := s.UCA0IFG &&& not16 UCRXIFG } := by
    unfold UART_ISR
    dsimp only
    rw [if_neg hdose, if_neg hq]
  rw [hs]
  exact ⟨rfl, rfl, rfl, rfl, rfl⟩

/-- Witness for `invalid_byte_dropped`: the byte `0x80` at power-on. -/
theorem invalid_byte_dropped_witness :
    ((0x80 : Fin 256).val = 0 ∨ (126 ≤ (0x80 : Fin 256).val ∧ (0x80 : Fin 256).val ≤ 254)) ∧
    ((UART_ISR powerOn 0x80).tx = powerOn.tx ∧ (UART_ISR powerOn 0x80).level = powerOn.level ∧
      (UART_ISR powerOn 0x80).numPers = powerOn.numPers ∧
      (UART_ISR powerOn 0x80).P1OUT = powerOn.P1OUT ∧
      (UART_ISR powerOn 0x80).pumpHigh = powerOn.pumpHigh) :=
  ⟨by decide, invalid_byte_dropped powerOn 0x80 (by decide)⟩

/-- C5. Low-reservoir alert: a dose request (byte in `1..125`) appends `0xFF`
to the transmit log if and only if the level before the dose is `≤ 125`,
and appends nothing when that level is `> 125`; in particular a request at
`level = 80` transmits `0xFF`. -/
theorem low_reservoir_alert (s : NodeA) (b : Fin 256) (h1 : 1 ≤ b.val) (h2 : b.val ≤ 125) :
    ((UART_ISR s b).tx = s.tx ++ [0xFF] ↔ s.level ≤ 125) ∧
    (125 < s.level → (UART_ISR s b).tx = s.tx) ∧
    ((UART_ISR s b).tx = s.tx ∨ (UART_ISR s b).tx = s.tx ++ [0xFF]) ∧
    (s.level = 80 → (UART_ISR s b).tx = s.tx ++ [0xFF]) := by
  obtain ⟨-, -, ht, -⟩ := UART_ISR_dose s b h1 h2
  by_cases hl : s.level ≤ 125
  · simp only [hl, if_true] at ht
    refine ⟨⟨fun _ => hl, fun _ => ht⟩, fun h => absurd hl (not_le.mpr h), Or.inr ht,
      fun _ => ht⟩
  · simp only [hl, if_false] at ht
    refine ⟨⟨fun h => ?_, fun h => absurd h hl⟩, fun _ => ht, Or.inl ht, fun h => ?_⟩
    · rw [ht] at h
      simp at h
    · omega

/-- Witness for `low_reservoir_alert`: a 20-unit request at `level = 80`. -/
theorem low_reservoir_alert_witness :
    (1 ≤ (20 : Fin 256).val ∧ (20 : Fin 256).val ≤ 125) ∧
    (UART_ISR { powerOn with level := 80 } 20).tx = [0xFF] :=
  ⟨by decide,
    (low_reservoir_alert { powerOn with level := 80 } 20 (by decide) (by decide)).2.2.2 rfl⟩

/-! ## The debouncer -/

theorem and_two_eq (x : Nat) : x &&& 2 = if x.testBit 1 then 2 else 0 := by
  apply Nat.eq_of_testBit_eq
  intro i
  have h2 : Nat.testBit 2 i = decide (1 = i) := by
    have := @Nat.testBit_two_pow 1 i
    simpa using this
  rw [Nat.testBit_and, h2]
  by_cases hi : 1 = i
  · subst hi
    cases hx : x.testBit 1 <;> simp [h2]
  · cases hx : x.testBit 1 <;> simp [hi, h2]

/-- The opposition test compares bit 1 of the sample with bit 1 of the stored value. -/
theorem opposes_eq (v p : Nat) : opposes v p = (p.testBit 1 ^^ v.testBit 1) := by
  unfold opposes BIT1
  rw [and_two_eq, Nat.testBit_xor]
  cases (p.testBit 1 ^^ v.testBit 1) <;> simp

/-- A sample opposes the toggled value exactly when it does not oppose the value. -/
theorem opposes_flip (v p : Nat) : opposes (v ^^^ BIT1) p = !opposes v p := by
  rw [opposes_eq, opposes_eq, Nat.testBit_xor]
  have : Nat.testBit BIT1 1 = true := by decide
  rw [this]
  cases p.testBit 1 <;> cases v.testBit 1 <;> rfl

/-- The fields of the state after one debounce tick. -/
theorem petDog_fields (s : NodeA) (p : Nat) :
    (petDog s p).count = (if petDogCommits s p then 0 else petDogCount s p) ∧
    (petDog s p).lastPress
      = (if petDogCommits s p then s.lastPress ^^^ BIT1 else s.lastPress) ∧
    (petDog s p).level
      = (if petDogCommits s p = true ∧ s.lastPress ^^^ BIT1 = 0 then 1500 else s.level) ∧
    (petDog s p).numPers = s.numPers ∧ (petDog s p).tx = s.tx ∧
    (petDog s p).P1OUT = s.P1OUT ∧ (petDog s p).WDTCTL = 0x5A0C := by
  unfold petDog petDogCommits petDogCount opposes
  dsimp only
  generalize (if ((p ^^^ s.lastPress) &&& BIT1 != 0) = true
      then wrap16 (s.count + 1) else 0) = c
  by_cases hc : 5 ≤ c
  · by_cases hz : s.lastPress ^^^ BIT1 = 0
    · rw [if_pos hc, if_pos hz]
      simp [hc, hz]
    · rw [if_pos hc, if_neg hz]
      simp [hc, hz]
  · rw [if_neg hc]
    simp [hc]

theorem runTicks_append (s : NodeA) (pre : List Nat) (x : Nat) :
    runTicks s (pre ++ [x]) = petDog (runTicks s pre) x := by
  simp [runTicks, List.foldl_append]

theorem trailingRun_append (v : Nat) (pre : List Nat) (x : Nat) :
    trailingRun v (pre ++ [x]) = if opposes v x then trailingRun v pre + 1 else 0 := by
  unfold trailingRun
  rw [List.reverse_append, List.reverse_singleton, List.singleton_append,
    List.takeWhile_cons]
  split <;> simp

/-- Debounce invariant along any sample sequence from a state with
`count = 0`: the stored count is the length of the current run of samples
opposing the stored button value, and it is at most 4. -/
theorem count_eq_trailingRun (s0 : NodeA) (h0 : s0.count = 0) (pre : List Nat) :
    (runTicks s0 pre).count = (trailingRun (runTicks s0 pre).lastPress pre : Int) ∧
    trailingRun (runTicks s0 pre).lastPress pre ≤ 4 := by
  induction pre using List.reverseRecOn with
  | nil => simp [runTicks, trailingRun, h0]
  | append_singleton pre x ih =>
    obtain ⟨hc, hle⟩ := ih
    obtain ⟨fc, fl, -⟩ := petDog_fields (runTicks s0 pre) x
    rw [runTicks_append, fc, fl]
    have hcnt : petDogCount (runTicks s0 pre) x
        = if opposes (runTicks s0 pre).lastPress x
          then (trailingRun (runTicks s0 pre).lastPress pre : Int) + 1 else 0 := by
      unfold petDogCount
      rw [hc]
      split
      · apply wrap16_eq_self
        unfold isInt16
        omega
      · rfl
    by_cases hcm : petDogCommits (runTicks s0 pre) x = true
    · have hop : opposes (runTicks s0 pre).lastPress x = true := by
        by_contra hno
        unfold petDogCommits at hcm
        rw [hcnt] at hcm
        simp [hno] at hcm
      simp [hcm, trailingRun_append, opposes_flip, hop]
    · have hlt : ¬ (5 : Int) ≤ petDogCount (runTicks s0 pre) x := by
        simpa [petDogCommits] using hcm
      rw [hcnt] at hlt
      simp only [hcm, if_false, Bool.false_eq_true]
      rw [hcnt, trailingRun_append]
      by_cases hop : opposes (runTicks s0 pre).lastPress x = true
      · simp only [hop, if_true] at hlt ⊢
        constructor
        · push_cast; rfl
        · omega
      · simp [hop]

theorem xor_BIT1_ne_self (v : Nat) : v ^^^ BIT1 ≠ v := by
  intro h
  have h' : v ^^^ BIT1 = v ^^^ 0 := by simpa using h
  have := Nat.xor_right_inj.mp h'
  exact absurd this (by decide)

/-- C7. Debounce commit rule: along any sample sequence `pre` from a state
with `count = 0`, the tick sampling `x` commits if and only if `x` is the
5th sample of the current run of consecutive samples opposing the stored
button value; such a run never gets longer than 5; a tick changes
`lastPress` exactly when it commits, and then toggles it; a sample equal to
the stored value resets the count to 0. The sample sequence
`[opp,opp,opp,opp,same,opp,opp,opp,opp,opp]` from power-on commits exactly
once, at the 10th tick. -/
theorem debounce_commit_rule (s0 : NodeA) (h0 : s0.count = 0) (pre : List Nat) (x : Nat) :
    (petDogCommits (runTicks s0 pre) x = true ↔
      trailingRun (runTicks s0 pre).lastPress (pre ++ [x]) = 5) ∧
    trailingRun (runTicks s0 pre).lastPress (pre ++ [x]) ≤ 5 ∧
    ((petDog (runTicks s0 pre) x).lastPress ≠ (runTicks s0 pre).lastPress ↔
      petDogCommits (runTicks s0 pre) x = true) ∧
    (petDogCommits (runTicks s0 pre) x = true →
      (petDog (runTicks s0 pre) x).lastPress = (runTicks s0 pre).lastPress ^^^ BIT1) ∧
    (opposes (runTicks s0 pre).lastPress x = false →
      (petDog (runTicks s0 pre) x).count = 0) ∧
    commitTicks powerOn [0, 0, 0, 0, BIT1, 0, 0, 0, 0, 0] = [10] := by
  obtain ⟨hc, hle⟩ := count_eq_trailingRun s0 h0 pre
  obtain ⟨fc, fl, -⟩ := petDog_fields (runTicks s0 pre) x
  have hcm : petDogCommits (runTicks s0 pre) x = true ↔
      trailingRun (runTicks s0 pre).lastPress (pre ++ [x]) = 5 := by
    unfold petDogCommits petDogCount
    rw [trailingRun_append, hc]
    by_cases hop : opposes (runTicks s0 pre).lastPress x = true
    · have hw : wrap16 ((trailingRun (runTicks s0 pre).lastPress pre : Int) + 1)
          = (trailingRun (runTicks s0 pre).lastPress pre : Int) + 1 := by
        apply wrap16_eq_self
        unfold isInt16
        omega
      simp only [hop, if_true, hw, decide_eq_true_eq]
      omega
    · simp [hop]
  refine ⟨hcm, ?_, ?_, ?_, ?_, by decide⟩
  · rw [trailingRun_append]
    split <;> omega
  · rw [fl]
    by_cases h : petDogCommits (runTicks s0 pre) x = true
    · simp [h, xor_BIT1_ne_self]
    · simp [h]
  · intro h
    rw [fl]
    simp [h]
  · intro hop
    rw [fc]
    unfold petDogCount
    simp [hop]

/-- Witness for `debounce_commit_rule`: at power-on, the fifth of five
pressed samples commits. -/
theorem debounce_commit_rule_witness :
    powerOn.count = 0 ∧
    trailingRun (runTicks powerOn [0, 0, 0, 0]).lastPress ([0, 0, 0, 0] ++ [0]) = 5 ∧
    petDogCommits (runTicks powerOn [0, 0, 0, 0]) 0 = true :=
  ⟨rfl, by decide,
    (debounce_commit_rule powerOn rfl [0, 0, 0, 0] 0).1.mpr (by decide)⟩

/-- C8. Refill: a debounce tick changes `level` only if it commits a
transition to the pressed value (`lastPress` becomes 0); such a tick sets
`level` to 1500 whatever it was, so `level` changes exactly when it was not
already 1500; every other tick leaves `level` unchanged; no tick changes
`numPers`. From the released state, four pressed samples followed by a
released one do not refill, five pressed samples do. -/
theorem refill_rule (s : NodeA) (p : Nat) :
    ((petDog s p).level ≠ s.level ↔
      (petDogCommits s p = true ∧ (petDog s p).lastPress = 0) ∧ s.level ≠ 1500) ∧
    (petDogCommits s p = true ∧ (petDog s p).lastPress = 0 → (petDog s p).level = 1500) ∧
    (¬ (petDogCommits s p = true ∧ (petDog s p).lastPress = 0) →
      (petDog s p).level = s.level) ∧
    (petDog s p).numPers = s.numPers ∧
    (runTicks { powerOn with level := 100 } [0, 0, 0, 0, BIT1]).level = 100 ∧
    (runTicks { powerOn with level := 100 } [0, 0, 0, 0, 0]).level = 1500 := by
  obtain ⟨-, fl, flev, fn, -⟩ := petDog_fields s p
  rw [fl, flev]
  by_cases hc : petDogCommits s p = true
  · by_cases hz : s.lastPress ^^^ BIT1 = 0
    · simp [hc, hz, fn, eq_comm]
      decide
    · simp [hc, hz, fn]
      decide
  · simp [hc, fn]
    decide

/-! ## The pump actuator -/

theorem or_BIT0_and_BIT0 (x : Nat) : (x ||| BIT0) &&& BIT0 = 1 := by
  unfold BIT0
  rw [Nat.and_one_is_mod]
  have h := Nat.testBit_or x 1 0
  rw [Nat.testBit_zero, Nat.testBit_zero, Nat.testBit_zero] at h
  have h2 := Nat.mod_two_eq_zero_or_one (x ||| 1)
  rcases h2 with h2 | h2
  · rw [h2] at h
    simp at h
  · exact h2

theorem and_not16_BIT0_and_BIT0 (x : Nat) : (x &&& not16 BIT0) &&& BIT0 = 0 := by
  rw [Nat.and_assoc]
  have : not16 BIT0 &&& BIT0 = 0 := by decide
  rw [this]
  simp

/-- C9. Pump actuator step: on a period event with `numPers > 0` the pump
output goes high and `numPers` drops by exactly 1; with `numPers ≤ 0` the
state (pump output and `numPers` included) is unchanged; a duty-cycle event
drives the pump output low in every state and keeps `numPers`; neither
event changes `level`. -/
theorem pump_step (s : NodeA) (hn : isInt16 s.numPers) :
    (0 < s.numPers →
      (pumpOn s).pumpHigh = true ∧ (pumpOn s).numPers = s.numPers - 1) ∧
    (¬ 0 < s.numPers → pumpOn s = s) ∧
    (pumpOff s).pumpHigh = false ∧ (pumpOff s).numPers = s.numPers ∧
    (pumpOn s).level = s.level ∧ (pumpOff s).level = s.level := by
  refine ⟨fun h => ?_, fun h => ?_, ?_, rfl, ?_, rfl⟩
  · unfold pumpOn NodeA.pumpHigh
    rw [if_pos h]
    dsimp only
    rw [or_BIT0_and_BIT0]
    refine ⟨by decide, wrap16_eq_self ?_⟩
    unfold isInt16 at hn ⊢
    omega
  · unfold pumpOn
    rw [if_neg h]
  · unfold pumpOff NodeA.pumpHigh
    dsimp only
    rw [and_not16_BIT0_and_BIT0]
    decide
  · unfold pumpOn
    split <;> rfl

/-- Witness for `pump_step`: one period event with 200 periods pending. -/
theorem pump_step_witness :
    isInt16 (200 : Int) ∧
    (pumpOn { powerOn with numPers := 200 }).pumpHigh = true ∧
    (pumpOn { powerOn with numPers := 200 }).numPers = 200 - 1 :=
  ⟨by decide, (pump_step { powerOn with numPers := 200 } (by decide)).1 (by decide)⟩

/-! ## The reservoir invariant -/

/-- The level after a received byte that is not a dose request is the level before. -/
theorem UART_ISR_level_of_not_dose (s : NodeA) (b : Fin 256)
    (hb : ¬ (1 ≤ b.val ∧ b.val ≤ 125)) : (UART_ISR s b).level = s.level := by
  have hdose : ¬ ((0x01 : Int) ≤ (b.val : Int) ∧ (b.val : Int) ≤ 0x7D) := by
    rintro ⟨h1, h2⟩
    exact hb ⟨by exact_mod_cast h1, by exact_mod_cast h2⟩
  unfold UART_ISR
  dsimp only
  rw [if_neg hdose]
  repeat' split
  all_goals rfl

/-- One interrupt keeps the level within `0..1500`. -/
theorem step_level_bounds (s : NodeA) (e : Event)
    (h : 0 ≤ s.level ∧ s.level ≤ 1500) :
    0 ≤ (step s e).level ∧ (step s e).level ≤ 1500 := by
  cases e with
  | rx b =>
    show 0 ≤ (UART_ISR s b).level ∧ (UART_ISR s b).level ≤ 1500
    by_cases hb : 1 ≤ b.val ∧ b.val ≤ 125
    · obtain ⟨hl, -⟩ := UART_ISR_dose s b hb.1 hb.2
      have h1i : (1 : Int) ≤ (b.val : Int) := by exact_mod_cast hb.1
      rw [hl, wrap16_eq_self]
      · constructor
        · have := min_le_right (b.val : Int) s.level
          omega
        · have : 0 ≤ min (b.val : Int) s.level := le_min (by omega) h.1
          omega
      · unfold isInt16
        have := min_le_right (b.val : Int) s.level
        have : 0 ≤ min (b.val : Int) s.level := le_min (by omega) h.1
        omega
    · rw [UART_ISR_level_of_not_dose s b hb]
      exact h
  | period =>
    show 0 ≤ (pumpOn s).level ∧ (pumpOn s).level ≤ 1500
    have : (pumpOn s).level = s.level := by unfold pumpOn; split <;> rfl
    rw [this]
    exact h
  | duty => exact h
  | tick p =>
    show 0 ≤ (petDog s p).level ∧ (petDog s p).level ≤ 1500
    obtain ⟨-, -, flev, -⟩ := petDog_fields s p
    rw [flev]
    split
    · decide
    · exact h

theorem run_level_bounds (s : NodeA) (evs : List Event)
    (h : 0 ≤ s.level ∧ s.level ≤ 1500) :
    0 ≤ (run s evs).level ∧ (run s evs).level ≤ 1500 := by
  induction evs generalizing s with
  | nil => exact h
  | cons e evs ih => exact ih (step s e) (step_level_bounds s e h)

/-- C2. Reservoir invariant: in every state reachable from power-on
(`level = 1500`, `numPers = 0`) by any finite sequence of received bytes,
pump period events, duty-cycle events and debounce ticks with arbitrary
samples, `0 ≤ level ≤ 1500`. -/
theorem reservoir_invariant (s0 : NodeA) (h0 : s0.isPowerOn) (evs : List Event) :
    0 ≤ (run s0 evs).level ∧ (run s0 evs).level ≤ 1500 := by
  apply run_level_bounds
  rw [h0.1]
  decide

/-- Witness for `reservoir_invariant`: a dose, a pump period and a status
query from power-on. -/
theorem reservoir_invariant_witness :
    powerOn.isPowerOn ∧
    0 ≤ (run powerOn [Event.rx 100, Event.period, Event.duty, Event.rx 0xFF]).level ∧
    (run powerOn [Event.rx 100, Event.period, Event.duty, Event.rx 0xFF]).level ≤ 1500 :=
  ⟨⟨rfl, rfl, rfl, rfl⟩,
    reservoir_invariant powerOn ⟨rfl, rfl, rfl, rfl⟩
      [Event.rx 100, Event.period, Event.duty, Event.rx 0xFF]⟩

/-! ## Accumulating pending periods across refills -/

theorem run_append (s : NodeA) (a b : List Event) : run s (a ++ b) = run (run s a) b := by
  simp [run, List.foldl_append]

/-- While the sums stay in range, `k` dose requests of 125 units take `125 * k`
units from the reservoir and add `250 * k` pending periods. -/
theorem run_doses (k : Nat) (s : NodeA) (hl : 125 * (k : Int) ≤ s.level)
    (hl2 : s.level ≤ 1500) (hn : -32768 ≤ s.numPers)
    (hn2 : s.numPers + 250 * (k : Int) ≤ 32767) :
    (run s (List.replicate k (Event.rx 125))).level = s.level - 125 * (k : Int) ∧
    (run s (List.replicate k (Event.rx 125))).numPers = s.numPers + 250 * (k : Int) ∧
    (run s (List.replicate k (Event.rx 125))).lastPress = s.lastPress ∧
    (run s (List.replicate k (Event.rx 125))).count = s.count := by
  induction k generalizing s with
  | zero => simp [run]
  | succ k ih =>
    obtain ⟨fl, fn, -, flp, fc, -⟩ := UART_ISR_dose s 125 (by decide) (by decide)
    have hv : (((125 : Fin 256).val : Nat) : Int) = 125 := by decide
    rw [hv] at fl fn
    push_cast at hl hn2
    have hmin : min (125 : Int) s.level = 125 := min_eq_left (by omega)
    rw [hmin] at fl fn
    rw [wrap16_eq_self (by unfold isInt16; omega)] at fl
    rw [wrap16_eq_self (x := 2 * 125) (by decide),
      wrap16_eq_self (by unfold isInt16; omega)] at fn
    have := ih (UART_ISR s 125) (by rw [fl]; omega) (by rw [fl]; omega)
      (by rw [fn]; omega) (by rw [fn]; omega)
    rw [List.replicate_succ]
    show (run (UART_ISR s 125) _).level = _ ∧ (run (UART_ISR s 125) _).numPers = _ ∧
      (run (UART_ISR s 125) _).lastPress = _ ∧ (run (UART_ISR s 125) _).count = _
    rw [this.1, this.2.1, this.2.2.1, this.2.2.2, fl, fn, flp, fc]
    push_cast
    refine ⟨by ring, by ring, rfl, rfl⟩

/-- From the released state, a debounced press and release refills the
reservoir and changes nothing else among the globals and the statics. -/
theorem run_pressRelease (s : NodeA) (hlp : s.lastPress = BIT1) (hc : s.count = 0) :
    (run s pressRelease).level = 1500 ∧ (run s pressRelease).numPers = s.numPers ∧
    (run s pressRelease).lastPress = BIT1 ∧ (run s pressRelease).count = 0 := by
  obtain ⟨level, numPers, lastPress, count, P1OUT, WDTCTL, TA1CCTL1, UCA0IFG, tx⟩ := s
  simp only at hlp hc
  subst hlp hc
  simp [run, pressRelease, List.replicate, step, petDog, BIT1, wrap16]

/-- A refill followed by a full drain adds 3000 pending periods. -/
theorem run_refill_drain (s : NodeA) (hlp : s.lastPress = BIT1) (hc : s.count = 0)
    (hn : -32768 ≤ s.numPers) (hn2 : s.numPers + 3000 ≤ 32767) :
    (run s (pressRelease ++ drain)).level = 0 ∧
    (run s (pressRelease ++ drain)).numPers = s.numPers + 3000 ∧
    (run s (pressRelease ++ drain)).lastPress = BIT1 ∧
    (run s (pressRelease ++ drain)).count = 0 := by
  obtain ⟨pl, pn, plp, pc⟩ := run_pressRelease s hlp hc
  obtain ⟨dl, dn, dlp, dc⟩ := run_doses 12 (run s pressRelease)
    (by rw [pl]; decide) (by rw [pl]) (by rw [pn]; exact hn)
    (by rw [pn]; push_cast; omega)
  rw [run_append]
  unfold drain
  rw [dl, dn, dlp, dc, pl, pn, plp, pc]
  refine ⟨by norm_num, by norm_num, rfl, rfl⟩

/-- The refill-and-drain cycle repeated `m` times adds `3000 * m` pending
periods, as long as the sum stays in range. -/
theorem run_cycles (m : Nat) (s : NodeA) (hlp : s.lastPress = BIT1) (hc : s.count = 0)
    (hn : -32768 ≤ s.numPers) (hn2 : s.numPers + 3000 * (m : Int) ≤ 32767) :
    (run s (List.replicate m (pressRelease ++ drain)).flatten).numPers
      = s.numPers + 3000 * (m : Int) ∧
    (run s (List.replicate m (pressRelease ++ drain)).flatten).lastPress = BIT1 ∧
    (run s (List.replicate m (pressRelease ++ drain)).flatten).count = 0 := by
  induction m generalizing s with
  | zero => simp [run, hlp, hc]
  | succ m ih =>
    push_cast at hn2
    obtain ⟨-, cn, clp, cc⟩ := run_refill_drain s hlp hc hn (by omega)
    have := ih (run s (pressRelease ++ drain)) clp cc (by rw [cn]; omega)
      (by rw [cn]; omega)
    rw [List.replicate_succ, List.flatten_cons, run_append, this.1, this.2.1, this.2.2, cn]
    refine ⟨by push_cast; ring, rfl, rfl⟩

/-- The state `approachTrace` reaches from power-on: 125 units left in the
reservoir and 32750 pump periods pending. -/
theorem run_approachTrace :
    (run powerOn approachTrace).level = 125 ∧
    (run powerOn approachTrace).numPers = 32750 := by
  obtain ⟨-, an, alp, ac⟩ := run_doses 12 powerOn (by decide) (by decide) (by decide)
    (by decide)
  have an' : (run powerOn drain).numPers = 3000 := by
    unfold drain; rw [an]; decide
  have alp' : (run powerOn drain).lastPress = BIT1 := by
    unfold drain; rw [alp]; rfl
  have ac' : (run powerOn drain).count = 0 := by
    unfold drain; rw [ac]; rfl
  obtain ⟨bn, blp, bc⟩ := run_cycles 9 (run powerOn drain) alp' ac'
    (by rw [an']; decide) (by rw [an']; decide)
  rw [an'] at bn
  obtain ⟨cl, cn, clp, cc⟩ := run_pressRelease _ blp bc
  rw [bn] at cn
  obtain ⟨dl, dn, -, -⟩ := run_doses 11 _ (by rw [cl]; decide) (by rw [cl])
    (by rw [cn]; decide) (by rw [cn]; decide)
  unfold approachTrace
  rw [run_append, run_append, run_append, dl, dn, cl, cn]
  constructor <;> norm_num

/-- Dose accounting while the 16-bit sum does not overflow: for a request
`a` in `1..125` at `0 ≤ level`, the level drops by `min a level`, stays
non-negative, and `numPers` grows by `2 * min a level`. -/
theorem dose_accounting_in_range (s : NodeA) (a : Fin 256) (h1 : 1 ≤ a.val)
    (h2 : a.val ≤ 125) (h0 : 0 ≤ s.level) (hl : s.level ≤ 32767)
    (hn : -32768 ≤ s.numPers)
    (hsum : s.numPers + 2 * min (a.val : Int) s.level ≤ 32767) :
    (UART_ISR s a).level = s.level - min (a.val : Int) s.level ∧
    0 ≤ (UART_ISR s a).level ∧
    (UART_ISR s a).numPers = s.numPers + 2 * min (a.val : Int) s.level := by
  obtain ⟨fl, fn, -⟩ := UART_ISR_dose s a h1 h2
  have h1i : (1 : Int) ≤ (a.val : Int) := by exact_mod_cast h1
  have h2i : (a.val : Int) ≤ 125 := by exact_mod_cast h2
  have hm0 : 0 ≤ min (a.val : Int) s.level := le_min (by omega) h0
  have hm1 : min (a.val : Int) s.level ≤ s.level := min_le_right _ _
  have hm2 : min (a.val : Int) s.level ≤ 125 := le_trans (min_le_left _ _) h2i
  rw [fl, fn, wrap16_eq_self (x := 2 * min (a.val : Int) s.level) (by unfold isInt16; omega),
    wrap16_eq_self (x := s.level - min (a.val : Int) s.level) (by unfold isInt16; omega),
    wrap16_eq_self (by unfold isInt16; omega)]
  refine ⟨rfl, by omega, rfl⟩

/-- The nominal scenario: at power-on a request of 100 units leaves
`level = 1400` and `numPers = 200`, and the status query that follows is
answered with `0x88`. -/
theorem dose_accounting_scenario :
    (UART_ISR powerOn 100).level = 1400 ∧ (UART_ISR powerOn 100).numPers = 200 ∧
    (UART_ISR (UART_ISR powerOn 100) 0xFF).tx = [0x88] := by
  decide

/-- An interrupt keeps `numPers` non-negative as long as a further dose
cannot overflow it: the invariant is lost only through the 16-bit wrap. -/
theorem step_numPers_nonneg (s : NodeA) (e : Event) (h0 : 0 ≤ s.numPers)
    (hl : 0 ≤ s.level ∧ s.level ≤ 1500) (hsum : s.numPers + 250 ≤ 32767) :
    0 ≤ (step s e).numPers := by
  cases e with
  | rx b =>
    show 0 ≤ (UART_ISR s b).numPers
    by_cases hb : 1 ≤ b.val ∧ b.val ≤ 125
    · have h2i : (b.val : Int) ≤ 125 := by exact_mod_cast hb.2
      have hm : min (b.val : Int) s.level ≤ 125 := le_trans (min_le_left _ _) h2i
      have hm0 : 0 ≤ min (b.val : Int) s.level := le_min (by omega) hl.1
      obtain ⟨-, -, fn⟩ := dose_accounting_in_range s b hb.1 hb.2 hl.1 (by omega)
        (by omega) (by omega)
      rw [fn]
      omega
    · have hdose : ¬ ((0x01 : Int) ≤ (b.val : Int) ∧ (b.val : Int) ≤ 0x7D) := by
        rintro ⟨h1, h2⟩
        exact hb ⟨by exact_mod_cast h1, by exact_mod_cast h2⟩
      have : (UART_ISR s b).numPers = s.numPers := by
        unfold UART_ISR
        dsimp only
        rw [if_neg hdose]
        repeat' split
        all_goals rfl
      rw [this]
      exact h0
  | period =>
    show 0 ≤ (pumpOn s).numPers
    unfold pumpOn
    split
    · dsimp only
      rw [wrap16_eq_self (by unfold isInt16; omega)]
      omega
    · exact h0
  | duty => exact h0
  | tick p =>
    show 0 ≤ (petDog s p).numPers
    rw [(petDog_fields s p).2.2.2.1]
    exact h0

/-- The dose request of 125 units that follows `approachTrace`: the 16-bit
sum `32750 + 250` wraps to `-32536`. -/
theorem UART_ISR_after_approachTrace :
    (UART_ISR (run powerOn approachTrace) 125).level = 0 ∧
    (UART_ISR (run powerOn approachTrace) 125).numPers = -32536 := by
  obtain ⟨hl, hn⟩ := run_approachTrace
  obtain ⟨fl, fn, -⟩ := UART_ISR_dose (run powerOn approachTrace) 125 (by decide) (by decide)
  rw [fl, fn, hl, hn]
  constructor <;> decide

/-- C1 (failing input). In the state reached from power-on by
`approachTrace` (`level = 125 ≥ 0`, `numPers = 32750`), the dose request
`a = 125` leaves `level' = level - min a level = 0`, but `numPers'` is
`-32536`, not `numPers + 2 * min a level = 33000`: the 16-bit addition
`numPers += 2*dosage` overflows. -/
theorem dose_accounting_overflow :
    (run powerOn approachTrace).level = 125 ∧
    (run powerOn approachTrace).numPers = 32750 ∧
    (UART_ISR (run powerOn approachTrace) 125).level
      = (run powerOn approachTrace).level - min 125 (run powerOn approachTrace).level ∧
    (UART_ISR (run powerOn approachTrace) 125).numPers = -32536 ∧
    (run powerOn approachTrace).numPers + 2 * min 125 (run powerOn approachTrace).level
      = 33000 := by
  obtain ⟨hl, hn⟩ := run_approachTrace
  obtain ⟨fl, fn⟩ := UART_ISR_after_approachTrace
  rw [fl, fn, hl, hn]
  decide

/-- C10 (failing input). The 232 interrupts of `overflowTrace`, served from
power-on, leave `numPers = -32536 < 0`: eleven reservoirs of accepted doses
with no pump period event in between exceed the range of the 16-bit `int`. -/
theorem pending_periods_overflow :
    powerOn.isPowerOn ∧ overflowTrace.length = 232 ∧
    (run powerOn overflowTrace).numPers = -32536 ∧
    (run powerOn overflowTrace).numPers < 0 := by
  have h : (run powerOn overflowTrace).numPers = -32536 := by
    unfold overflowTrace
    rw [run_append]
    exact UART_ISR_after_approachTrace.2
  refine ⟨⟨rfl, rfl, rfl, rfl⟩, rfl, h, ?_⟩
  rw [h]
  decide

/-! ## The pulse train -/

theorem periods_cons_period (evs : List Event) :
    periods (Event.period :: evs) = periods evs + 1 := by
  simp [periods]

theorem periods_cons_duty (evs : List Event) : periods (Event.duty :: evs) = periods evs := by
  simp [periods]

theorem periods_append (a b : List Event) : periods (a ++ b) = periods a + periods b := by
  simp [periods]

/-- Along a trace of pump events, each period event takes one pending period
until none is left, and the period events that drive the pump high are
counted by `pulses`. -/
theorem run_pump (evs : List Event) (s : NodeA) (hp : ∀ e ∈ evs, e.isPump = true)
    (h0 : 0 ≤ s.numPers) (h1 : s.numPers ≤ 32767) :
    (run s evs).numPers = max (s.numPers - (periods evs : Int)) 0 ∧
    (pulses s evs : Int) = min s.numPers (periods evs : Int) ∧
    (run s evs).level = s.level := by
  induction evs generalizing s with
  | nil => simp [run, pulses, periods, h0]
  | cons e evs ih =>
    have hrest : ∀ e' ∈ evs, e'.isPump = true := fun e' he' =>
      hp e' (List.mem_cons_of_mem _ he')
    have he := hp e (List.mem_cons_self _ _)
    cases e with
    | rx b => simp [Event.isPump] at he
    | tick p => simp [Event.isPump] at he
    | duty =>
      obtain ⟨i1, i2, i3⟩ := ih (pumpOff s) hrest h0 h1
      show (run (pumpOff s) evs).numPers = _ ∧
        (((if drivesHigh s Event.duty then 1 else 0) + pulses (pumpOff s) evs : Nat) : Int) = _ ∧
        (run (pumpOff s) evs).level = _
      rw [periods_cons_duty, i1, i3]
      refine ⟨rfl, ?_, rfl⟩
      simp only [drivesHigh, Bool.false_eq_true, if_false, Nat.zero_add]
      exact i2
    | period =>
      show (run (pumpOn s) evs).numPers = _ ∧
        (((if drivesHigh s Event.period then 1 else 0) + pulses (pumpOn s) evs : Nat) : Int) = _ ∧
        (run (pumpOn s) evs).level = _
      rw [periods_cons_period]
      by_cases hpos : 0 < s.numPers
      · have hn : (pumpOn s).numPers = s.numPers - 1 := by
          unfold pumpOn
          rw [if_pos hpos]
          exact wrap16_eq_self (by unfold isInt16; omega)
        have hlv : (pumpOn s).level = s.level := by
          unfold pumpOn
          rw [if_pos hpos]
        obtain ⟨i1, i2, i3⟩ := ih (pumpOn s) hrest (by rw [hn]; omega) (by rw [hn]; omega)
        have hd : drivesHigh s Event.period = true := by simp [drivesHigh, hpos]
        refine ⟨?_, ?_, ?_⟩
        · rw [i1, hn]
          push_cast
          congr 1
          ring
        · simp only [hd, if_true]
          push_cast
          rw [i2, hn]
          omega
        · rw [i3, hlv]
      · have hs : pumpOn s = s := by
          unfold pumpOn
          rw [if_neg hpos]
        have hz : s.numPers = 0 := by omega
        obtain ⟨i1, i2, i3⟩ := ih s hrest h0 h1
        have hd : drivesHigh s Event.period = false := by simp [drivesHigh, hpos]
        rw [hs]
        refine ⟨?_, ?_, i3⟩
        · rw [i1, hz]
          push_cast
          omega
        · simp only [hd, Bool.false_eq_true, if_false, Nat.zero_add]
          rw [i2, hz]
          push_cast
          omega

/-- The pump pin after a duty-cycle event is low, whatever the state. -/
theorem pumpOff_pin_low (s : NodeA) :
    (pumpOff s).pumpHigh = false ∧ (pumpOff s).numPers = s.numPers ∧
    (pumpOff s).level = s.level := by
  refine ⟨?_, rfl, rfl⟩
  unfold pumpOff NodeA.pumpHigh
  dsimp only
  rw [and_not16_BIT0_and_BIT0]
  decide

/-- C11. Pulse train: from `numPers = n ≥ 0`, after any sequence of pump
period and duty-cycle events containing `k` period events, `numPers` is
`max (n - k) 0` and exactly `min n k` of the period events drove the pump
output high. On the handlers themselves: a period event that fewer than `n`
period events came before sets bit 0 of `P1OUT` (the pin is high after it)
and takes one pending period; every later period event leaves the whole
state, the pin included, as it was; every duty-cycle event leaves the pin
low and `numPers` as it was. In particular, when the state is the one left
by a dose request accepted at `numPers = 0`, `n` is twice the clamped
dosage, so exactly the next `2 * d` period events produce a pulse and no
later one does. -/
theorem pulse_train (s : NodeA) (evs : List Event) (hp : ∀ e ∈ evs, e.isPump = true)
    (h0 : 0 ≤ s.numPers) (h1 : s.numPers ≤ 32767) :
    (run s evs).numPers = max (s.numPers - (periods evs : Int)) 0 ∧
    (pulses s evs : Int) = min s.numPers (periods evs : Int) ∧
    (∀ pre post, evs = pre ++ Event.period :: post →
      (drivesHigh (run s pre) Event.period = true ↔ (periods pre : Int) < s.numPers) ∧
      (drivesHigh (run s pre) Event.period = true →
        (step (run s pre) Event.period).pumpHigh = true) ∧
      ((periods pre : Int) < s.numPers →
        (pumpOn (run s pre)).pumpHigh = true ∧
        (pumpOn (run s pre)).P1OUT = (run s pre).P1OUT ||| BIT0 ∧
        (pumpOn (run s pre)).numPers = (run s pre).numPers - 1) ∧
      (¬ (periods pre : Int) < s.numPers →
        pumpOn (run s pre) = run s pre ∧
        (pumpOn (run s pre)).pumpHigh = (run s pre).pumpHigh) ∧
      (drivesHigh (run s pre) Event.period = false →
        step (run s pre) Event.period = run s pre)) ∧
    (∀ pre post, evs = pre ++ Event.duty :: post →
      (pumpOff (run s pre)).pumpHigh = false ∧
      (pumpOff (run s pre)).numPers = (run s pre).numPers) ∧
    (∀ (s0 : NodeA) (b : Fin 256), 1 ≤ b.val → b.val ≤ 125 → 0 ≤ s0.level →
      s0.level ≤ 32767 → s0.numPers = 0 → s = UART_ISR s0 b →
      s.numPers = 2 * min (b.val : Int) s0.level) := by
  obtain ⟨r1, r2, -⟩ := run_pump evs s hp h0 h1
  refine ⟨r1, r2, ?_, ?_, ?_⟩
  · intro pre post hev
    have hpre : ∀ e ∈ pre, e.isPump = true := fun e he =>
      hp e (by rw [hev]; exact List.mem_append_left _ he)
    obtain ⟨p1, -, -⟩ := run_pump pre s hpre h0 h1
    have hiff : 0 < (run s pre).numPers ↔ (periods pre : Int) < s.numPers := by
      rw [p1]
      constructor
      · intro h
        by_contra hge
        rw [max_eq_right (by omega)] at h
        exact absurd h (lt_irrefl 0)
      · intro h
        exact lt_of_lt_of_le (by omega) (le_max_left _ _)
    have hle : (run s pre).numPers ≤ 32767 := by
      rw [p1]
      exact max_le (by omega) (by omega)
    have hhigh : 0 < (run s pre).numPers →
        (pumpOn (run s pre)).pumpHigh = true ∧
        (pumpOn (run s pre)).P1OUT = (run s pre).P1OUT ||| BIT0 ∧
        (pumpOn (run s pre)).numPers = (run s pre).numPers - 1 := by
      intro hpos
      unfold pumpOn NodeA.pumpHigh
      rw [if_pos hpos]
      dsimp only
      rw [or_BIT0_and_BIT0]
      exact ⟨by decide, rfl, wrap16_eq_self (by unfold isInt16; omega)⟩
    refine ⟨?_, ?_, fun h => hhigh (hiff.mpr h), fun h => ?_, fun hd => ?_⟩
    · simp only [drivesHigh, decide_eq_true_eq]
      exact hiff
    · intro hd
      have hpos : 0 < (run s pre).numPers := by
        simpa [drivesHigh] using hd
      exact (hhigh hpos).1
    · have hs : pumpOn (run s pre) = run s pre := by
        unfold pumpOn
        rw [if_neg (mt hiff.mp h)]
      exact ⟨hs, by rw [hs]⟩
    · have hnp : ¬ 0 < (run s pre).numPers := by
        simpa [drivesHigh] using hd
      show pumpOn (run s pre) = run s pre
      unfold pumpOn
      rw [if_neg hnp]
  · intro pre post _
    exact ⟨(pumpOff_pin_low (run s pre)).1, (pumpOff_pin_low (run s pre)).2.1⟩
  · intro s0 b hb1 hb2 hl0 hl1 hn0 hs
    have hb2i : (b.val : Int) ≤ 125 := by exact_mod_cast hb2
    have hm1 : min (b.val : Int) s0.level ≤ 125 := le_trans (min_le_left _ _) hb2i
    have hm0 : 0 ≤ min (b.val : Int) s0.level := le_min (by omega) hl0
    obtain ⟨-, -, fn⟩ := dose_accounting_in_range s0 b hb1 hb2 hl0 hl1 (by omega) (by omega)
    rw [hs, fn, hn0]
    ring

/-- Witness for `pulse_train`: three units accepted at power-on, then eight
pump periods; the first period event raises the pin, the duty-cycle event
after the sixth lowers it, and the seventh period event leaves the state as
it was, with the pin low. -/
theorem pulse_train_witness :
    (run (UART_ISR powerOn 3)
      [Event.period, Event.duty, Event.period, Event.period, Event.duty, Event.period,
        Event.period, Event.period, Event.duty, Event.period, Event.period]).numPers
      = max ((UART_ISR powerOn 3).numPers - 8) 0 ∧
    (pulses (UART_ISR powerOn 3)
      [Event.period, Event.duty, Event.period, Event.period, Event.duty, Event.period,
        Event.period, Event.period, Event.duty, Event.period, Event.period] : Int)
      = min (UART_ISR powerOn 3).numPers 8 ∧
    (pumpOn (run (UART_ISR powerOn 3) [])).pumpHigh = true ∧
    (pumpOff (run (UART_ISR powerOn 3)
      [Event.period, Event.duty, Event.period, Event.period, Event.duty, Event.period,
        Event.period, Event.period])).pumpHigh = false ∧
    pumpOn (run (UART_ISR powerOn 3)
      [Event.period, Event.duty, Event.period, Event.period, Event.duty, Event.period,
        Event.period, Event.period, Event.duty])
      = run (UART_ISR powerOn 3)
      [Event.period, Event.duty, Event.period, Event.period, Event.duty, Event.period,
        Event.period, Event.period, Event.duty] :=
  ⟨(pulse_train (UART_ISR powerOn 3)
      [Event.period, Event.duty, Event.period, Event.period, Event.duty, Event.period,
        Event.period, Event.period, Event.duty, Event.period, Event.period]
      (by decide) (by decide) (by decide)).1,
   (pulse_train (UART_ISR powerOn 3)
      [Event.period, Event.duty, Event.period, Event.period, Event.duty, Event.period,
        Event.period, Event.period, Event.duty, Event.period, Event.period]
      (by decide) (by decide) (by decide)).2.1,
   (((pulse_train (UART_ISR powerOn 3)
      [Event.period, Event.duty, Event.period, Event.period, Event.duty, Event.period,
        Event.period, Event.period, Event.duty, Event.period, Event.period]
      (by decide) (by decide) (by decide)).2.2.1 []
      [Event.duty, Event.period, Event.period, Event.duty, Event.period,
        Event.period, Event.period, Event.duty, Event.period, Event.period] rfl).2.2.1
      (by decide)).1,
   ((pulse_train (UART_ISR powerOn 3)
      [Event.period, Event.duty, Event.period, Event.period, Event.duty, Event.period,
        Event.period, Event.period, Event.duty, Event.period, Event.period]
      (by decide) (by decide) (by decide)).2.2.2.1
      [Event.period, Event.duty, Event.period, Event.period, Event.duty, Event.period,
        Event.period, Event.period]
      [Event.period, Event.period] rfl).1,
   (((pulse_train (UART_ISR powerOn 3)
      [Event.period, Event.duty, Event.period, Event.period, Event.duty, Event.period,
        Event.period, Event.period, Event.duty, Event.period, Event.period]
      (by decide) (by decide) (by decide)).2.2.1
      [Event.period, Event.duty, Event.period, Event.period, Event.duty, Event.period,
        Event.period, Event.period, Event.duty]
      [Event.period] rfl).2.2.2.1
      (by decide)).1⟩

/-! ## Conservation of accepted doses -/

/-- A received byte that is not a dose request leaves `numPers` as it was. -/
theorem UART_ISR_numPers_of_not_dose (s : NodeA) (b : Fin 256)
    (hb : ¬ (1 ≤ b.val ∧ b.val ≤ 125)) : (UART_ISR s b).numPers = s.numPers := by
  have hdose : ¬ ((0x01 : Int) ≤ (b.val : Int) ∧ (b.val : Int) ≤ 0x7D) := by
    rintro ⟨h1, h2⟩
    exact hb ⟨by exact_mod_cast h1, by exact_mod_cast h2⟩
  unfold UART_ISR
  dsimp only
  rw [if_neg hdose]
  repeat' split
  all_goals rfl

/-- Conservation while the pending count cannot overflow: along any trace
without debounce ticks, from a state with `0 ≤ level`, `0 ≤ numPers` and
`numPers + 2 * level ≤ 32767`, the quantity
`2 * level + numPers + pulses delivered` keeps its value. -/
theorem conservation_in_range (evs : List Event) (s : NodeA)
    (hnt : ∀ e ∈ evs, e.notTick = true) (hl0 : 0 ≤ s.level) (hn0 : 0 ≤ s.numPers)
    (hsum : s.numPers + 2 * s.level ≤ 32767) :
    2 * (run s evs).level + (run s evs).numPers + (pulses s evs : Int)
      = 2 * s.level + s.numPers := by
  induction evs generalizing s with
  | nil => simp [run, pulses]
  | cons e evs ih =>
    have hrest : ∀ e' ∈ evs, e'.notTick = true := fun e' he' =>
      hnt e' (List.mem_cons_of_mem _ he')
    have he := hnt e (List.mem_cons_self _ _)
    cases e with
    | tick p => simp [Event.notTick] at he
    | duty =>
      have := ih (pumpOff s) hrest hl0 hn0 hsum
      show 2 * (run (pumpOff s) evs).level + (run (pumpOff s) evs).numPers +
        (((if drivesHigh s Event.duty then 1 else 0) + pulses (pumpOff s) evs : Nat) : Int) = _
      simp only [drivesHigh, Bool.false_eq_true, if_false, Nat.zero_add]
      exact this
    | period =>
      show 2 * (run (pumpOn s) evs).level + (run (pumpOn s) evs).numPers +
        (((if drivesHigh s Event.period then 1 else 0) + pulses (pumpOn s) evs : Nat) : Int) = _
      by_cases hpos : 0 < s.numPers
      · have hn : (pumpOn s).numPers = s.numPers - 1 := by
          unfold pumpOn
          rw [if_pos hpos]
          exact wrap16_eq_self (by unfold isInt16; omega)
        have hlv : (pumpOn s).level = s.level := by
          unfold pumpOn
          rw [if_pos hpos]
        have := ih (pumpOn s) hrest (by rw [hlv]; exact hl0) (by rw [hn]; omega)
          (by rw [hn, hlv]; omega)
        rw [hn, hlv] at this
        have hd : drivesHigh s Event.period = true := by simp [drivesHigh, hpos]
        simp only [hd, if_true]
        push_cast
        omega
      · have hs : pumpOn s = s := by
          unfold pumpOn
          rw [if_neg hpos]
        have hd : drivesHigh s Event.period = false := by simp [drivesHigh, hpos]
        rw [hs]
        simp only [hd, Bool.false_eq_true, if_false, Nat.zero_add]
        exact ih s hrest hl0 hn0 hsum
    | rx b =>
      show 2 * (run (UART_ISR s b) evs).level + (run (UART_ISR s b) evs).numPers +
        (((if drivesHigh s (Event.rx b) then 1 else 0) + pulses (UART_ISR s b) evs : Nat) : Int)
          = _
      simp only [drivesHigh, Bool.false_eq_true, if_false, Nat.zero_add]
      by_cases hb : 1 ≤ b.val ∧ b.val ≤ 125
      · have hm0 : 0 ≤ min (b.val : Int) s.level := le_min (by omega) hl0
        have hm1 : min (b.val : Int) s.level ≤ s.level := min_le_right _ _
        obtain ⟨fl, -, fn⟩ := dose_accounting_in_range s b hb.1 hb.2 hl0 (by omega)
          (by omega) (by omega)
        have := ih (UART_ISR s b) hrest (by rw [fl]; omega) (by rw [fn]; omega)
          (by rw [fl, fn]; omega)
        rw [fl, fn] at this
        omega
      · have fl := UART_ISR_level_of_not_dose s b hb
        have fn := UART_ISR_numPers_of_not_dose s b hb
        have := ih (UART_ISR s b) hrest (by rw [fl]; exact hl0) (by rw [fn]; exact hn0)
          (by rw [fl, fn]; exact hsum)
        rw [fl, fn] at this
        exact this

/-- From power-on, as long as no debounce tick is served, the conserved
quantity stays at `2 * 1500`. -/
theorem conservation_from_powerOn (evs : List Event) (hnt : ∀ e ∈ evs, e.notTick = true) :
    2 * (run powerOn evs).level + (run powerOn evs).numPers + (pulses powerOn evs : Int)
      = 3000 := by
  rw [conservation_in_range evs powerOn hnt (by decide) (by decide) (by decide)]
  decide

/-- C17 (failing input). In the state reached from power-on by
`approachTrace` the quantity `2 * level + numPers + pulses` is `33000`; after
one more dose request of 125 units, a trace without any refill, it is
`-32536`: the 16-bit addition `numPers += 2*dosage` overflows and the
quantity is not conserved. -/
theorem conservation_overflow :
    (∀ e ∈ [Event.rx 125], e.notTick = true) ∧
    2 * (run powerOn approachTrace).level + (run powerOn approachTrace).numPers = 33000 ∧
    2 * (run (run powerOn approachTrace) [Event.rx 125]).level
        + (run (run powerOn approachTrace) [Event.rx 125]).numPers
        + (pulses (run powerOn approachTrace) [Event.rx 125] : Int) = -32536 := by
  obtain ⟨hl, hn⟩ := run_approachTrace
  obtain ⟨fl, fn⟩ := UART_ISR_after_approachTrace
  refine ⟨by decide, by rw [hl, hn]; decide, ?_⟩
  show 2 * (UART_ISR (run powerOn approachTrace) 125).level
      + (UART_ISR (run powerOn approachTrace) 125).numPers
      + (((if drivesHigh (run powerOn approachTrace) (Event.rx 125) then 1 else 0) + 0 : Nat)
          : Int) = -32536
  rw [fl, fn]
  simp [drivesHigh]

/-! ## Node B: the manual-dose debouncer -/

theorem and_four_eq (x : Nat) : x &&& 4 = if x.testBit 2 then 4 else 0 := by
  apply Nat.eq_of_testBit_eq
  intro i
  have h4 : Nat.testBit 4 i = decide (2 = i) := by
    have := @Nat.testBit_two_pow 2 i
    simpa using this
  rw [Nat.testBit_and, h4]
  by_cases hi : 2 = i
  · subst hi
    cases hx : x.testBit 2 <;> simp [h4]
  · cases hx : x.testBit 2 <;> simp [hi, h4]

/-- The opposition test of Node B compares bit 2 of the sample with bit 2 of
the stored value. -/
theorem opposesB_eq (v p : Nat) : opposesB v p = (p.testBit 2 ^^ v.testBit 2) := by
  unfold opposesB BIT2
  rw [and_four_eq, Nat.testBit_xor]
  cases (p.testBit 2 ^^ v.testBit 2) <;> simp

/-- The fields of Node B's state after one debounce tick. -/
theorem Timer2_fields (s : NodeB) (p : Nat) :
    (Timer2_ISR s p).count = (if Timer2Commits s p then 0 else Timer2Count s p) ∧
    (Timer2_ISR s p).lastPress
      = (if Timer2Commits s p then s.lastPress ^^^ BIT2 else s.lastPress) ∧
    (Timer2_ISR s p).tx
      = (if Timer2Commits s p = true ∧ s.lastPress ^^^ BIT2 = 0 then s.tx ++ [0x3E]
          else s.tx) ∧
    (Timer2_ISR s p).WDTCTL = 0x5A0C ∧ (Timer2_ISR s p).message = s.message := by
  unfold Timer2_ISR Timer2Commits Timer2Count opposesB
  dsimp only
  generalize (if ((p ^^^ s.lastPress) &&& BIT2 != 0) = true
      then wrap16 (s.count + 1) else 0) = c
  by_cases hc : 5 ≤ c
  · by_cases hz : s.lastPress ^^^ BIT2 = 0
    · rw [if_pos hc, if_pos hz]
      simp [hc, hz]
    · rw [if_pos hc, if_neg hz]
      simp [hc, hz]
  · rw [if_neg hc]
    simp [hc]

theorem runTimer2_append (s : NodeB) (pre : List Nat) (x : Nat) :
    runTimer2 s (pre ++ [x]) = Timer2_ISR (runTimer2 s pre) x := by
  simp [runTimer2, List.foldl_append]

/-- C15. Manual dose: a debounce tick of Node B appends a byte to the
transmit log if and only if it commits a transition to the pressed value
(`lastPress` becomes 0), and the byte is then `0x3E`; a tick that does not
commit, or that commits a transition to released, transmits nothing. From
power-on, five pressed samples transmit `0x3E` once, and the five released
samples that follow transmit nothing. -/
theorem manual_dose_rule (s : NodeB) (p : Nat) :
    ((Timer2_ISR s p).tx ≠ s.tx ↔
      (Timer2Commits s p = true ∧ (Timer2_ISR s p).lastPress = 0)) ∧
    (Timer2Commits s p = true ∧ (Timer2_ISR s p).lastPress = 0 →
      (Timer2_ISR s p).tx = s.tx ++ [0x3E]) ∧
    (¬ (Timer2Commits s p = true ∧ (Timer2_ISR s p).lastPress = 0) →
      (Timer2_ISR s p).tx = s.tx) ∧
    (runTimer2 powerOnB [0, 0, 0, 0]).tx = [] ∧
    (runTimer2 powerOnB [0, 0, 0, 0, 0]).tx = [0x3E] ∧
    (runTimer2 powerOnB [0, 0, 0, 0, 0, BIT2, BIT2, BIT2, BIT2, BIT2]).tx = [0x3E] := by
  obtain ⟨-, fl, ft, -⟩ := Timer2_fields s p
  rw [fl, ft]
  by_cases hc : Timer2Commits s p = true
  · by_cases hz : s.lastPress ^^^ BIT2 = 0
    · simp [hc, hz]
      decide
    · simp [hc, hz]
      decide
  · simp [hc]
    decide

/-- C16. Watchdog petting is part of every debounce tick: for every state
and every sample, `petDog` on Node A and `Timer2_ISR` on Node B leave the
pet value `0x5A0C` in `WDTCTL`, and so does every non-empty sequence of ticks. -/
theorem watchdog_petted_every_tick (a : NodeA) (b : NodeB) (p : Nat) (pre : List Nat) :
    (petDog a p).WDTCTL = 0x5A0C ∧ (Timer2_ISR b p).WDTCTL = 0x5A0C ∧
    (runTicks a (pre ++ [p])).WDTCTL = 0x5A0C ∧
    (runTimer2 b (pre ++ [p])).WDTCTL = 0x5A0C ∧ PETDOG = 0x5A0C := by
  refine ⟨(petDog_fields a p).2.2.2.2.2.2, (Timer2_fields b p).2.2.2.1, ?_, ?_, rfl⟩
  · rw [runTicks_append]
    exact (petDog_fields _ p).2.2.2.2.2.2
  · rw [runTimer2_append]
    exact (Timer2_fields _ p).2.2.2.1

/-! ## The debounce state -/

/-- Along any sample sequence from `lastPress = BIT1`, the stored button
value is one of `0` and `BIT1`. -/
theorem runTicks_lastPress (s0 : NodeA) (hlp : s0.lastPress = BIT1) (pre : List Nat) :
    (runTicks s0 pre).lastPress = 0 ∨ (runTicks s0 pre).lastPress = BIT1 := by
  induction pre using List.reverseRecOn with
  | nil => exact Or.inr hlp
  | append_singleton pre x ih =>
    rw [runTicks_append, (petDog_fields _ x).2.1]
    by_cases hc : petDogCommits (runTicks s0 pre) x = true
    · simp only [hc, if_true]
      rcases ih with h | h
      · rw [h]
        exact Or.inr (by decide)
      · rw [h]
        exact Or.inl (by decide)
    · simp only [hc, if_false, Bool.false_eq_true]
      exact ih

/-- C18. Debounce state invariant: along any sample sequence from the
power-on debounce state (`lastPress = BIT1`, released, and `count = 0`),
after every tick of `petDog` the count lies in `0..4` and `lastPress` is `0`
or `BIT1`; the count is 0 after a tick whose sample does not oppose the
stored value and after a tick that commits. -/
theorem debounce_state_invariant (s0 : NodeA) (hlp : s0.lastPress = BIT1)
    (hc : s0.count = 0) (pre : List Nat) (x : Nat) :
    0 ≤ (petDog (runTicks s0 pre) x).count ∧ (petDog (runTicks s0 pre) x).count ≤ 4 ∧
    ((petDog (runTicks s0 pre) x).lastPress = 0 ∨
      (petDog (runTicks s0 pre) x).lastPress = BIT1) ∧
    (opposes (runTicks s0 pre).lastPress x = false →
      (petDog (runTicks s0 pre) x).count = 0) ∧
    (petDogCommits (runTicks s0 pre) x = true → (petDog (runTicks s0 pre) x).count = 0) := by
  obtain ⟨hcnt, hle⟩ := count_eq_trailingRun s0 hc (pre ++ [x])
  have hlast := runTicks_lastPress s0 hlp (pre ++ [x])
  rw [runTicks_append] at hcnt hle hlast
  obtain ⟨fc, -⟩ := petDog_fields (runTicks s0 pre) x
  refine ⟨by rw [hcnt]; omega, by rw [hcnt]; omega, hlast, ?_, ?_⟩
  · intro hop
    rw [fc]
    unfold petDogCount
    simp [hop]
  · intro hcm
    rw [fc]
    simp [hcm]

/-- Witness for `debounce_state_invariant`: the fifth pressed sample at power-on. -/
theorem debounce_state_invariant_witness :
    powerOn.lastPress = BIT1 ∧ powerOn.count = 0 ∧
    0 ≤ (petDog (runTicks powerOn [0, 0, 0, 0]) 0).count ∧
    (petDog (runTicks powerOn [0, 0, 0, 0]) 0).count ≤ 4 :=
  ⟨rfl, rfl, (debounce_state_invariant powerOn rfl rfl [0, 0, 0, 0] 0).1,
    (debounce_state_invariant powerOn rfl rfl [0, 0, 0, 0] 0).2.1⟩

/-! ## The two debouncers side by side -/

/-- Related states and related samples give the same opposition test. -/
theorem sameDebounce_opposes (a : NodeA) (b : NodeB) (h : sameDebounce a b) (pa pb : Nat)
    (hs : pa.testBit 1 = pb.testBit 2) :
    opposes a.lastPress pa = opposesB b.lastPress pb := by
  rw [opposes_eq, opposesB_eq, hs]
  rcases h.2 with ⟨ha, hb⟩ | ⟨ha, hb⟩
  · rw [ha, hb]
    have h1 : Nat.testBit BIT1 1 = true := by decide
    have h2 : Nat.testBit BIT2 2 = true := by decide
    rw [h1, h2]
  · rw [ha, hb]
    simp

/-- Related states and related samples commit together. -/
theorem sameDebounce_commits (a : NodeA) (b : NodeB) (h : sameDebounce a b) (pa pb : Nat)
    (hs : pa.testBit 1 = pb.testBit 2) :
    petDogCount a pa = Timer2Count b pb ∧ petDogCommits a pa = Timer2Commits b pb := by
  have hc : petDogCount a pa = Timer2Count b pb := by
    unfold petDogCount Timer2Count
    rw [sameDebounce_opposes a b h pa pb hs, h.1]
  refine ⟨hc, ?_⟩
  unfold petDogCommits Timer2Commits
  rw [hc]

/-- One tick on each node, on related samples, keeps the states related. -/
theorem sameDebounce_step (a : NodeA) (b : NodeB) (h : sameDebounce a b) (pa pb : Nat)
    (hs : pa.testBit 1 = pb.testBit 2) :
    sameDebounce (petDog a pa) (Timer2_ISR b pb) := by
  obtain ⟨hcnt, hcm⟩ := sameDebounce_commits a b h pa pb hs
  obtain ⟨ac, al, -⟩ := petDog_fields a pa
  obtain ⟨bc, bl, -⟩ := Timer2_fields b pb
  unfold sameDebounce
  rw [ac, al, bc, bl, ← hcm, ← hcnt]
  refine ⟨rfl, ?_⟩
  by_cases hc : petDogCommits a pa = true
  · simp only [hc, if_true]
    rcases h.2 with ⟨ha, hb⟩ | ⟨ha, hb⟩
    · rw [ha, hb]
      exact Or.inr ⟨by decide, by decide⟩
    · rw [ha, hb]
      exact Or.inl ⟨by decide, by decide⟩
  · simp only [hc, if_false, Bool.false_eq_true]
    exact h.2

/-- Along any sequence of related sample pairs, the two debouncers stay related. -/
theorem sameDebounce_run (samples : List (Nat × Nat))
    (hs : ∀ q ∈ samples, q.1.testBit 1 = q.2.testBit 2) (a : NodeA) (b : NodeB)
    (h : sameDebounce a b) :
    sameDebounce (runTicks a (samples.map Prod.fst)) (runTimer2 b (samples.map Prod.snd)) := by
  induction samples generalizing a b with
  | nil => exact h
  | cons q samples ih =>
    have hq := hs q (List.mem_cons_self _ _)
    have hrest : ∀ q' ∈ samples, q'.1.testBit 1 = q'.2.testBit 2 := fun q' hq' =>
      hs q' (List.mem_cons_of_mem _ hq')
    exact ih hrest (petDog a q.1) (Timer2_ISR b q.2) (sameDebounce_step a b h q.1 q.2 hq)

/-- The refill guard decides the level after a tick. -/
theorem petDog_level_of_refills (s : NodeA) (p : Nat) :
    (petDog s p).level = if petDogRefills s p then 1500 else s.level := by
  rw [(petDog_fields s p).2.2.1]
  unfold petDogRefills
  by_cases hc : petDogCommits s p = true <;> by_cases hz : s.lastPress ^^^ BIT1 = 0 <;>
    simp [hc, hz]

/-- The level after a tick served with an arbitrary level `L` in the
reservoir: 1500 when the tick refills, `L` otherwise. -/
theorem petDog_level_with (s : NodeA) (L : Int) (p : Nat) :
    (petDog { s with level := L } p).level = if petDogRefills s p then 1500 else L :=
  petDog_level_of_refills { s with level := L } p

/-- Node B transmits on a tick exactly when the commit makes `lastPress` zero. -/
theorem Timer2_tx_iff (s : NodeB) (p : Nat) :
    ((Timer2_ISR s p).tx = s.tx ++ [0x3E] ↔
      (Timer2Commits s p = true ∧ s.lastPress ^^^ BIT2 = 0)) ∧
    ((Timer2_ISR s p).tx ≠ s.tx ↔
      (Timer2Commits s p = true ∧ s.lastPress ^^^ BIT2 = 0)) := by
  rw [(Timer2_fields s p).2.2.1]
  by_cases h : Timer2Commits s p = true ∧ s.lastPress ^^^ BIT2 = 0
  · simp [h]
  · simp [h]

/-- C19. The two debouncers are the same state machine: started at power-on
(`lastPress` released, `count = 0`) and fed button samples that agree (bit 1
of Node A's sample equals bit 2 of Node B's), after every tick they have
equal counts and the same pressed/released stored value; on the next pair of
samples they compute the same count, commit together, and Node A refills
exactly when Node B transmits `0x3E`: whatever level `L` the reservoir holds
before the tick, `petDog` leaves 1500 if Node B's tick appends `0x3E` to its
transmit log and leaves `L` if Node B's tick transmits nothing. -/
theorem debouncers_agree (samples : List (Nat × Nat))
    (hs : ∀ q ∈ samples, q.1.testBit 1 = q.2.testBit 2) (a : NodeA) (b : NodeB)
    (ha : a.lastPress = BIT1 ∧ a.count = 0) (hb : b.lastPress = BIT2 ∧ b.count = 0)
    (pa pb : Nat) (hp : pa.testBit 1 = pb.testBit 2) :
    (runTicks a (samples.map Prod.fst)).count = (runTimer2 b (samples.map Prod.snd)).count ∧
    ((runTicks a (samples.map Prod.fst)).lastPress = 0 ↔
      (runTimer2 b (samples.map Prod.snd)).lastPress = 0) ∧
    ((runTicks a (samples.map Prod.fst)).lastPress = BIT1 ↔
      (runTimer2 b (samples.map Prod.snd)).lastPress = BIT2) ∧
    petDogCount (runTicks a (samples.map Prod.fst)) pa
      = Timer2Count (runTimer2 b (samples.map Prod.snd)) pb ∧
    petDogCommits (runTicks a (samples.map Prod.fst)) pa
      = Timer2Commits (runTimer2 b (samples.map Prod.snd)) pb ∧
    (petDogRefills (runTicks a (samples.map Prod.fst)) pa = true ↔
      (Timer2_ISR (runTimer2 b (samples.map Prod.snd)) pb).tx
        = (runTimer2 b (samples.map Prod.snd)).tx ++ [0x3E]) ∧
    (petDogRefills (runTicks a (samples.map Prod.fst)) pa = true ↔
      (Timer2_ISR (runTimer2 b (samples.map Prod.snd)) pb).tx
        ≠ (runTimer2 b (samples.map Prod.snd)).tx) ∧
    (petDog (runTicks a (samples.map Prod.fst)) pa).level
      = (if petDogRefills (runTicks a (samples.map Prod.fst)) pa then 1500
          else (runTicks a (samples.map Prod.fst)).level) ∧
    (∀ L : Int, (petDog { runTicks a (samples.map Prod.fst) with level := L } pa).level
      = (if (Timer2_ISR (runTimer2 b (samples.map Prod.snd)) pb).tx
            = (runTimer2 b (samples.map Prod.snd)).tx ++ [0x3E] then 1500 else L)) ∧
    (∀ L : Int, (petDog { runTicks a (samples.map Prod.fst) with level := L } pa).level
      = (if (Timer2_ISR (runTimer2 b (samples.map Prod.snd)) pb).tx
            ≠ (runTimer2 b (samples.map Prod.snd)).tx then 1500 else L)) := by
  have h0 : sameDebounce a b := ⟨by rw [ha.2, hb.2], Or.inl ⟨ha.1, hb.1⟩⟩
  have hR := sameDebounce_run samples hs a b h0
  obtain ⟨hcnt, hcm⟩ := sameDebounce_commits _ _ hR pa pb hp
  obtain ⟨t1, t2⟩ := Timer2_tx_iff (runTimer2 b (samples.map Prod.snd)) pb
  have hz : ((runTicks a (samples.map Prod.fst)).lastPress ^^^ BIT1 = 0 ↔
      (runTimer2 b (samples.map Prod.snd)).lastPress ^^^ BIT2 = 0) := by
    rcases hR.2 with ⟨h1, h2⟩ | ⟨h1, h2⟩
    · rw [h1, h2]
      decide
    · rw [h1, h2]
      decide
  have hrefill : petDogRefills (runTicks a (samples.map Prod.fst)) pa = true ↔
      (Timer2Commits (runTimer2 b (samples.map Prod.snd)) pb = true ∧
        (runTimer2 b (samples.map Prod.snd)).lastPress ^^^ BIT2 = 0) := by
    unfold petDogRefills
    rw [Bool.and_eq_true, decide_eq_true_eq, hcm, hz]
  refine ⟨hR.1, ?_, ?_, hcnt, hcm, hrefill.trans t1.symm, hrefill.trans t2.symm,
    petDog_level_of_refills _ pa, ?_, ?_⟩
  · rcases hR.2 with ⟨h1, h2⟩ | ⟨h1, h2⟩
    · rw [h1, h2]
      decide
    · rw [h1, h2]
  · rcases hR.2 with ⟨h1, h2⟩ | ⟨h1, h2⟩
    · rw [h1, h2]
      exact ⟨fun _ => rfl, fun _ => rfl⟩
    · rw [h1, h2]
      decide
  · intro L
    rw [petDog_level_with]
    by_cases hr : petDogRefills (runTicks a (samples.map Prod.fst)) pa = true
    · rw [if_pos hr, if_pos ((hrefill.trans t1.symm).mp hr)]
    · rw [if_neg hr, if_neg (mt (hrefill.trans t1.symm).mpr hr)]
  · intro L
    rw [petDog_level_with]
    by_cases hr : petDogRefills (runTicks a (samples.map Prod.fst)) pa = true
    · rw [if_pos hr, if_pos ((hrefill.trans t2.symm).mp hr)]
    · rw [if_neg hr, if_neg (mt (hrefill.trans t2.symm).mpr hr)]

/-- Witness for `debouncers_agree`: four pressed samples on each node, then a
fifth, which refills a reservoir holding 1400 while Node B transmits; and
five pressed samples, then a sixth, which leaves a reservoir holding 1400
alone while Node B transmits nothing. -/
theorem debouncers_agree_witness :
    petDogCommits (runTicks powerOn ([(0, 0), (1, 3), (0, 0), (0, 0)].map Prod.fst)) 0
      = Timer2Commits (runTimer2 powerOnB ([(0, 0), (1, 3), (0, 0), (0, 0)].map Prod.snd)) 1 ∧
    (petDog { runTicks powerOn ([(0, 0), (1, 3), (0, 0), (0, 0)].map Prod.fst)
        with level := 1400 } 0).level = 1500 ∧
    (Timer2_ISR (runTimer2 powerOnB ([(0, 0), (1, 3), (0, 0), (0, 0)].map Prod.snd)) 1).tx
      = [0x3E] ∧
    (petDog { runTicks powerOn ([(0, 0), (1, 3), (0, 0), (0, 0), (0, 1)].map Prod.fst)
        with level := 1400 } 0).level = 1400 ∧
    (Timer2_ISR (runTimer2 powerOnB ([(0, 0), (1, 3), (0, 0), (0, 0), (0, 1)].map Prod.snd))
      1).tx = [0x3E] :=
  ⟨(debouncers_agree [(0, 0), (1, 3), (0, 0), (0, 0)] (by decide) powerOn powerOnB
      ⟨rfl, rfl⟩ ⟨rfl, rfl⟩ 0 1 (by decide)).2.2.2.2.1,
    ((debouncers_agree [(0, 0), (1, 3), (0, 0), (0, 0)] (by decide) powerOn powerOnB
      ⟨rfl, rfl⟩ ⟨rfl, rfl⟩ 0 1 (by decide)).2.2.2.2.2.2.2.2.1 1400).trans (by decide),
    by decide,
    ((debouncers_agree [(0, 0), (1, 3), (0, 0), (0, 0), (0, 1)] (by decide) powerOn powerOnB
      ⟨rfl, rfl⟩ ⟨rfl, rfl⟩ 0 1 (by decide)).2.2.2.2.2.2.2.2.1 1400).trans (by decide),
    by decide⟩

/-! ## A held button -/

/-- Node A while the button is held from the released state: the count
follows the number of pressed samples up to 4, the fifth commits and
refills, and from then on nothing changes. -/
theorem runTicks_held (s0 : NodeA) (hlp : s0.lastPress = BIT1) (hc : s0.count = 0)
    (pre : List Nat) (hp : ∀ p ∈ pre, p.testBit 1 = false) :
    (pre.length < 5 → (runTicks s0 pre).count = (pre.length : Int) ∧
      (runTicks s0 pre).lastPress = BIT1 ∧ (runTicks s0 pre).level = s0.level) ∧
    (5 ≤ pre.length → (runTicks s0 pre).count = 0 ∧
      (runTicks s0 pre).lastPress = 0 ∧ (runTicks s0 pre).level = 1500) := by
  induction pre using List.reverseRecOn with
  | nil => simp [runTicks, hlp, hc]
  | append_singleton pre x ih =>
    have hx : x.testBit 1 = false := hp x (by simp)
    have hpre : ∀ p ∈ pre, p.testBit 1 = false := fun p h => hp p (by simp [h])
    obtain ⟨ih1, ih2⟩ := ih hpre
    obtain ⟨fc, fl, flev, -⟩ := petDog_fields (runTicks s0 pre) x
    rw [runTicks_append, fc, fl, flev, List.length_append, List.length_singleton]
    by_cases hlen : pre.length < 5
    · obtain ⟨c, l, lv⟩ := ih1 hlen
      have hop : opposes (runTicks s0 pre).lastPress x = true := by
        rw [opposes_eq, l, hx]
        decide
      have hcount : petDogCount (runTicks s0 pre) x = (pre.length : Int) + 1 := by
        unfold petDogCount
        rw [hop, c]
        simp only [if_true]
        exact wrap16_eq_self (by unfold isInt16; omega)
      by_cases h4 : pre.length = 4
      · have hcm : petDogCommits (runTicks s0 pre) x = true := by
          unfold petDogCommits
          rw [hcount, h4]
          decide
        have hz : (runTicks s0 pre).lastPress ^^^ BIT1 = 0 := by
          rw [l]
          decide
        simp only [hcm, hz, if_true, and_self]
        refine ⟨fun h => by omega, fun _ => by simp⟩
      · have hcm : ¬ petDogCommits (runTicks s0 pre) x = true := by
          unfold petDogCommits
          rw [hcount]
          simp only [decide_eq_true_eq]
          omega
        simp only [hcm, if_false, false_and]
        refine ⟨fun _ => ⟨?_, l, lv⟩, fun h => by omega⟩
        rw [hcount]
        push_cast
        rfl
    · obtain ⟨c, l, lv⟩ := ih2 (by omega)
      have hop : opposes (runTicks s0 pre).lastPress x = false := by
        rw [opposes_eq, l, hx]
        decide
      have hcount : petDogCount (runTicks s0 pre) x = 0 := by
        unfold petDogCount
        rw [hop]
        simp
      have hcm : ¬ petDogCommits (runTicks s0 pre) x = true := by
        unfold petDogCommits
        rw [hcount]
        decide
      simp only [hcm, if_false, false_and]
      refine ⟨fun h => by omega, fun _ => ⟨hcount, l, lv⟩⟩

/-- Node B while the button is held from the released state: the fifth
pressed sample commits and transmits `0x3E`, and nothing is transmitted
before or after. -/
theorem runTimer2_held (s0 : NodeB) (hlp : s0.lastPress = BIT2) (hc : s0.count = 0)
    (pre : List Nat) (hp : ∀ p ∈ pre, p.testBit 2 = false) :
    (pre.length < 5 → (runTimer2 s0 pre).count = (pre.length : Int) ∧
      (runTimer2 s0 pre).lastPress = BIT2 ∧ (runTimer2 s0 pre).tx = s0.tx) ∧
    (5 ≤ pre.length → (runTimer2 s0 pre).count = 0 ∧
      (runTimer2 s0 pre).lastPress = 0 ∧ (runTimer2 s0 pre).tx = s0.tx ++ [0x3E]) := by
  induction pre using List.reverseRecOn with
  | nil => simp [runTimer2, hlp, hc]
  | append_singleton pre x ih =>
    have hx : x.testBit 2 = false := hp x (by simp)
    have hpre : ∀ p ∈ pre, p.testBit 2 = false := fun p h => hp p (by simp [h])
    obtain ⟨ih1, ih2⟩ := ih hpre
    obtain ⟨fc, fl, ft, -⟩ := Timer2_fields (runTimer2 s0 pre) x
    rw [runTimer2_append, fc, fl, ft, List.length_append, List.length_singleton]
    by_cases hlen : pre.length < 5
    · obtain ⟨c, l, lv⟩ := ih1 hlen
      have hop : opposesB (runTimer2 s0 pre).lastPress x = true := by
        rw [opposesB_eq, l, hx]
        decide
      have hcount : Timer2Count (runTimer2 s0 pre) x = (pre.length : Int) + 1 := by
        unfold Timer2Count
        rw [hop, c]
        simp only [if_true]
        exact wrap16_eq_self (by unfold isInt16; omega)
      by_cases h4 : pre.length = 4
      · have hcm : Timer2Commits (runTimer2 s0 pre) x = true := by
          unfold Timer2Commits
          rw [hcount, h4]
          decide
        have hz : (runTimer2 s0 pre).lastPress ^^^ BIT2 = 0 := by
          rw [l]
          decide
        simp only [hcm, hz, if_true, and_self]
        refine ⟨fun h => by omega, fun _ => by simp [lv]⟩
      · have hcm : ¬ Timer2Commits (runTimer2 s0 pre) x = true := by
          unfold Timer2Commits
          rw [hcount]
          simp only [decide_eq_true_eq]
          omega
        simp only [hcm, if_false, false_and]
        refine ⟨fun _ => ⟨?_, l, lv⟩, fun h => by omega⟩
        rw [hcount]
        push_cast
        rfl
    · obtain ⟨c, l, lv⟩ := ih2 (by omega)
      have hop : opposesB (runTimer2 s0 pre).lastPress x = false := by
        rw [opposesB_eq, l, hx]
        decide
      have hcount : Timer2Count (runTimer2 s0 pre) x = 0 := by
        unfold Timer2Count
        rw [hop]
        simp
      have hcm : ¬ Timer2Commits (runTimer2 s0 pre) x = true := by
        unfold Timer2Commits
        rw [hcount]
        decide
      simp only [hcm, if_false, false_and]
      refine ⟨fun h => by omega, fun _ => ⟨hcount, l, lv⟩⟩

/-- The ticks of a held button: from the released state with `count = 0`,
along samples that all read pressed, the refill guard of Node A holds at the
5th tick only, and Node B transmits at the 5th tick only. -/
theorem held_button_ticks (a : NodeA) (b : NodeB)
    (ha : a.lastPress = BIT1 ∧ a.count = 0) (hb : b.lastPress = BIT2 ∧ b.count = 0)
    (preA preB : List Nat) (xA xB : Nat)
    (hA : ∀ p ∈ preA ++ [xA], p.testBit 1 = false)
    (hB : ∀ p ∈ preB ++ [xB], p.testBit 2 = false) :
    (petDogRefills (runTicks a preA) xA = true ↔ preA.length + 1 = 5) ∧
    ((Timer2_ISR (runTimer2 b preB) xB).tx ≠ (runTimer2 b preB).tx ↔
      preB.length + 1 = 5) ∧
    (runTicks a (preA ++ [xA])).level = (if 5 ≤ preA.length + 1 then 1500 else a.level) ∧
    (runTimer2 b (preB ++ [xB])).tx
      = b.tx ++ (if 5 ≤ preB.length + 1 then [0x3E] else []) ∧
    refillTicks powerOn (List.replicate 12 0) = [5] ∧
    transmitTicks powerOnB (List.replicate 12 0) = [5] ∧
    refillTicks powerOn (List.replicate 4 0) = [] ∧
    transmitTicks powerOnB (List.replicate 4 0) = [] := by
  have hpreA : ∀ p ∈ preA, p.testBit 1 = false := fun p h => hA p (by simp [h])
  have hpreB : ∀ p ∈ preB, p.testBit 2 = false := fun p h => hB p (by simp [h])
  obtain ⟨a1, a2⟩ := runTicks_held a ha.1 ha.2 preA hpreA
  obtain ⟨a3, a4⟩ := runTicks_held a ha.1 ha.2 (preA ++ [xA]) hA
  obtain ⟨b1, b2⟩ := runTimer2_held b hb.1 hb.2 preB hpreB
  obtain ⟨b3, b4⟩ := runTimer2_held b hb.1 hb.2 (preB ++ [xB]) hB
  rw [List.length_append, List.length_singleton] at a3 a4 b3 b4
  rw [runTicks_append] at a3 a4
  have fl := (petDog_fields (runTicks a preA) xA).2.1
  refine ⟨?_, ?_, ?_, ?_, by decide, by decide, by decide, by decide⟩
  · unfold petDogRefills
    rw [Bool.and_eq_true, decide_eq_true_eq]
    constructor
    · rintro ⟨hcm, hz⟩
      by_contra hne
      rw [hcm] at fl
      simp only [if_true] at fl
      by_cases hlt : preA.length + 1 < 5
      · have := (a3 hlt).2.1
        rw [fl, hz] at this
        exact absurd this (by decide)
      · have hl := (a2 (by omega)).2.1
        rw [hl] at hz
        exact absurd hz (by decide)
    · intro h5
      have hbefore := (a1 (by omega)).2.1
      have hafter := (a4 (by omega)).2.1
      have hcm : petDogCommits (runTicks a preA) xA = true := by
        by_contra hno
        rw [fl] at hafter
        simp only [hno, if_false, Bool.false_eq_true] at hafter
        rw [hbefore] at hafter
        exact absurd hafter (by decide)
      refine ⟨hcm, ?_⟩
      rw [hbefore]
      decide
  · rw [← runTimer2_append]
    by_cases hlt : preB.length + 1 < 5
    · rw [(b3 hlt).2.2, (b1 (by omega)).2.2]
      constructor
      · intro h
        exact absurd rfl h
      · intro h
        omega
    · by_cases h5 : preB.length + 1 = 5
      · rw [(b4 (by omega)).2.2, (b1 (by omega)).2.2]
        constructor
        · intro _
          exact h5
        · intro _ h
          have := congrArg List.length h
          simp at this
      · rw [(b4 (by omega)).2.2, (b2 (by omega)).2.2]
        constructor
        · intro h
          exact absurd rfl h
        · intro h
          omega
  · by_cases h5 : 5 ≤ preA.length + 1
    · rw [← runTicks_append] at a4
      rw [(a4 h5).2.2, if_pos h5]
    · rw [← runTicks_append] at a3
      rw [(a3 (by omega)).2.2, if_neg h5]
  · by_cases h5 : 5 ≤ preB.length + 1
    · rw [(b4 h5).2.2, if_pos h5]
    · rw [(b3 (by omega)).2.2, if_neg h5]
      simp

/-- C20. A held button fires once: from the released state with `count = 0`,
along samples that all read pressed, whatever level `L` the reservoir of
Node A holds before a tick, `petDog` leaves 1500 if the tick is the 5th and
leaves `L` at every other tick, earlier or later; Node B's tick appends
`0x3E` to its transmit log if it is the 5th and leaves the log alone at every
other tick. After `n` such samples Node A's level is 1500 if `n ≥ 5` and
untouched otherwise, and Node B has transmitted `0x3E` once if `n ≥ 5` and
nothing otherwise. Twelve held samples fire at tick 5 only, four held
samples never. -/
theorem held_button_fires_once (a : NodeA) (b : NodeB)
    (ha : a.lastPress = BIT1 ∧ a.count = 0) (hb : b.lastPress = BIT2 ∧ b.count = 0)
    (preA preB : List Nat) (xA xB : Nat)
    (hA : ∀ p ∈ preA ++ [xA], p.testBit 1 = false)
    (hB : ∀ p ∈ preB ++ [xB], p.testBit 2 = false) :
    (∀ L : Int, (petDog { runTicks a preA with level := L } xA).level
      = (if preA.length + 1 = 5 then 1500 else L)) ∧
    (Timer2_ISR (runTimer2 b preB) xB).tx
      = (if preB.length + 1 = 5 then (runTimer2 b preB).tx ++ [0x3E]
          else (runTimer2 b preB).tx) ∧
    (petDogRefills (runTicks a preA) xA = true ↔ preA.length + 1 = 5) ∧
    ((Timer2_ISR (runTimer2 b preB) xB).tx ≠ (runTimer2 b preB).tx ↔
      preB.length + 1 = 5) ∧
    (runTicks a (preA ++ [xA])).level = (if 5 ≤ preA.length + 1 then 1500 else a.level) ∧
    (runTimer2 b (preB ++ [xB])).tx
      = b.tx ++ (if 5 ≤ preB.length + 1 then [0x3E] else []) ∧
    refillTicks powerOn (List.replicate 12 0) = [5] ∧
    transmitTicks powerOnB (List.replicate 12 0) = [5] ∧
    refillTicks powerOn (List.replicate 4 0) = [] ∧
    transmitTicks powerOnB (List.replicate 4 0) = [] := by
  obtain ⟨k1, k2, k3, k4, k5, k6, k7, k8⟩ := held_button_ticks a b ha hb preA preB xA xB hA hB
  refine ⟨?_, ?_, k1, k2, k3, k4, k5, k6, k7, k8⟩
  · intro L
    rw [petDog_level_with]
    by_cases h5 : preA.length + 1 = 5
    · rw [if_pos (k1.mpr h5), if_pos h5]
    · rw [if_neg (mt k1.mp h5), if_neg h5]
  · obtain ⟨-, -, ft, -⟩ := Timer2_fields (runTimer2 b preB) xB
    obtain ⟨-, t2⟩ := Timer2_tx_iff (runTimer2 b preB) xB
    rw [ft]
    by_cases h5 : preB.length + 1 = 5
    · rw [if_pos (t2.mp (k2.mpr h5)), if_pos h5]
    · rw [if_neg (mt t2.mpr (mt k2.mp h5)), if_neg h5]

/-- Witness for `held_button_fires_once`: on each node the fifth held sample
fires, with 1400 units in Node A's reservoir before the tick; the seventh
held sample leaves those 1400 units alone and Node B's log as it was. -/
theorem held_button_fires_once_witness :
    (petDog { runTicks powerOn [0, 0, 0, 0] with level := 1400 } 0).level = 1500 ∧
    (Timer2_ISR (runTimer2 powerOnB [0, 0, 0, 0]) 0).tx = [0x3E] ∧
    (petDog { runTicks powerOn [0, 0, 0, 0, 0, 0] with level := 1400 } 0).level = 1400 ∧
    (Timer2_ISR (runTimer2 powerOnB [0, 0, 0, 0, 0, 0]) 0).tx
      = (runTimer2 powerOnB [0, 0, 0, 0, 0, 0]).tx :=
  ⟨(held_button_fires_once powerOn powerOnB ⟨rfl, rfl⟩ ⟨rfl, rfl⟩ [0, 0, 0, 0] [0, 0, 0, 0]
      0 0 (by decide) (by decide)).1 1400,
   (held_button_fires_once powerOn powerOnB ⟨rfl, rfl⟩ ⟨rfl, rfl⟩ [0, 0, 0, 0] [0, 0, 0, 0]
      0 0 (by decide) (by decide)).2.1,
   (held_button_fires_once powerOn powerOnB ⟨rfl, rfl⟩ ⟨rfl, rfl⟩ [0, 0, 0, 0, 0, 0]
      [0, 0, 0, 0, 0, 0] 0 0 (by decide) (by decide)).1 1400,
   (held_button_fires_once powerOn powerOnB ⟨rfl, rfl⟩ ⟨rfl, rfl⟩ [0, 0, 0, 0, 0, 0]
      [0, 0, 0, 0, 0, 0] 0 0 (by decide) (by decide)).2.1⟩

/-! ## Node B: the status presenter -/

theorem shown_P_OFF (lcd : Nat → Char) (h : ['P', ' ', 'O', 'F', 'F', ' '] ≠ []) :
    (List.range 6).map (fun i => DisplayWord lcd ['P', ' ', 'O', 'F', 'F', ' '] h (i + 1))
      = ['P', ' ', 'O', 'F', 'F', ' '] := by
  simp [DisplayWord, myLCD_showChar, List.range, List.range.loop, Function.update]

theorem shown_P_ON (lcd : Nat → Char) (h : [' ', 'P', ' ', 'O', 'N', ' '] ≠ []) :
    (List.range 6).map (fun i => DisplayWord lcd [' ', 'P', ' ', 'O', 'N', ' '] h (i + 1))
      = [' ', 'P', ' ', 'O', 'N', ' '] := by
  simp [DisplayWord, myLCD_showChar, List.range, List.range.loop, Function.update]

theorem receiveStage_fields (s : NodeB) (rx : Option (Fin 256)) :
    (receiveStage s rx).message = heldMessage s rx ∧
    (receiveStage s rx).exclamation = s.exclamation ∧ (receiveStage s rx).tx = s.tx ∧
    (receiveStage s rx).P1OUT = s.P1OUT ∧ (receiveStage s rx).P9OUT = s.P9OUT := by
  cases rx <;> exact ⟨rfl, rfl, rfl, rfl, rfl⟩

theorem indicatorStage_fields (s : NodeB) :
    (indicatorStage s).message = s.message ∧
    (indicatorStage s).exclamation
      = (if s.message = 0x02 ∨ s.message = 0x89 then s.exclamation
          else if s.message = 0x88 ∨ s.message = 0x01 then false else s.exclamation) ∧
    (indicatorStage s).tx = s.tx ∧
    (indicatorStage s).P1OUT
      = (match indicatorBranch s.message with
          | .low => s.P1OUT ||| BIT0
          | .normal => s.P1OUT &&& not16 BIT0
          | _ => s.P1OUT) ∧
    (indicatorStage s).P9OUT
      = (match indicatorBranch s.message with
          | .low => s.P9OUT &&& not16 0x80
          | .normal => s.P9OUT ||| 0x80
          | _ => s.P9OUT) := by
  unfold indicatorStage indicatorBranch
  by_cases h2 : s.message = 0x02 ∨ s.message = 0x89
  · rw [if_pos h2, if_pos h2, if_pos h2]
    exact ⟨rfl, rfl, rfl, rfl, rfl⟩
  · by_cases h1 : s.message = 0x88 ∨ s.message = 0x01
    · rw [if_neg h2, if_neg h2, if_neg h2, if_pos h1, if_pos h1, if_pos h1]
      exact ⟨rfl, rfl, rfl, rfl, rfl⟩
    · rw [if_neg h2, if_neg h2, if_neg h2, if_neg h1, if_neg h1, if_neg h1]
      by_cases h3 : s.message = 0x03 ∨ s.message = 0x8A
      · rw [if_pos h3]
        exact ⟨rfl, rfl, rfl, rfl, rfl⟩
      · rw [if_neg h3]
        exact ⟨rfl, rfl, rfl, rfl, rfl⟩

theorem pollStage_fields (s : NodeB) (ta0 : Bool) :
    (pollStage s ta0).message = s.message ∧
    (pollStage s ta0).exclamation = s.exclamation ∧
    (pollStage s ta0).tx = s.tx ++ (if ta0 then [0xFF] else []) ∧
    (pollStage s ta0).P1OUT
      = (if ta0 = true ∧ (s.message = 0x03 ∨ s.message = 0x8A) then s.P1OUT ^^^ 0x01
          else s.P1OUT) ∧
    (pollStage s ta0).P9OUT
      = (if ta0 = true ∧ (s.message = 0x03 ∨ s.message = 0x8A) then s.P9OUT &&& not16 0x80
          else s.P9OUT) := by
  unfold pollStage
  cases ta0
  · simp
  · by_cases h3 : s.message = 0x03 ∨ s.message = 0x8A
    · simp [h3]
    · simp [h3]

theorem doseStage_fields (s : NodeB) (ta1 : Bool) :
    (doseStage s ta1).message = s.message ∧
    (doseStage s ta1).exclamation = s.exclamation ∧
    (doseStage s ta1).tx = s.tx ++ (if ta1 then [0x14] else []) ∧
    (doseStage s ta1).P1OUT = s.P1OUT ∧ (doseStage s ta1).P9OUT = s.P9OUT := by
  unfold doseStage
  cases ta1 <;> simp

theorem displayStage_fields (s : NodeB) :
    (displayStage s).message = s.message ∧
    (displayStage s).exclamation = s.exclamation ∧ (displayStage s).tx = s.tx ∧
    (displayStage s).P1OUT = s.P1OUT ∧ (displayStage s).P9OUT = s.P9OUT ∧
    (displayStage s).shown
      = (if s.message = 0x01 ∨ s.message = 0x02 ∨ s.message = 0x03
          then ['P', ' ', 'O', 'F', 'F', ' '] else [' ', 'P', ' ', 'O', 'N', ' ']) := by
  unfold displayStage NodeB.shown
  by_cases h : s.message = 0x01 ∨ s.message = 0x02 ∨ s.message = 0x03
  · rw [if_pos h, if_pos h]
    exact ⟨rfl, rfl, rfl, rfl, rfl, shown_P_OFF _ (by decide)⟩
  · rw [if_neg h, if_neg h]
    exact ⟨rfl, rfl, rfl, rfl, rfl, shown_P_ON _ (by decide)⟩

theorem alertStage_fields (s : NodeB) :
    (alertStage s).message = s.message ∧
    (alertStage s).exclamation = (if s.message = 0xFF then true else s.exclamation) ∧
    (alertStage s).tx = s.tx ∧ (alertStage s).P1OUT = s.P1OUT ∧
    (alertStage s).P9OUT = s.P9OUT ∧ (alertStage s).shown = s.shown := by
  unfold alertStage NodeB.shown
  split <;> exact ⟨rfl, rfl, rfl, rfl, rfl, rfl⟩

/-- The outputs of one pass of the main loop, in terms of the held message. -/
theorem mainLoopPass_fields (s : NodeB) (rx : Option (Fin 256)) (ta0 ta1 : Bool) :
    (mainLoopPass s rx ta0 ta1).message = heldMessage s rx ∧
    (mainLoopPass s rx ta0 ta1).exclamation
      = mainLoopExclamation (heldMessage s rx) s.exclamation ∧
    (mainLoopPass s rx ta0 ta1).shown
      = (if heldMessage s rx = 0x01 ∨ heldMessage s rx = 0x02 ∨ heldMessage s rx = 0x03
          then ['P', ' ', 'O', 'F', 'F', ' '] else [' ', 'P', ' ', 'O', 'N', ' ']) ∧
    (mainLoopPass s rx ta0 ta1).tx
      = s.tx ++ (if ta0 then [0xFF] else []) ++ (if ta1 then [0x14] else []) ∧
    (mainLoopPass s rx ta0 ta1).P1OUT
      = (match indicatorBranch (heldMessage s rx) with
          | .low => s.P1OUT ||| BIT0
          | .normal => s.P1OUT &&& not16 BIT0
          | .critical => if ta0 then s.P1OUT ^^^ 0x01 else s.P1OUT
          | .none => s.P1OUT) ∧
    (mainLoopPass s rx ta0 ta1).P9OUT
      = (match indicatorBranch (heldMessage s rx) with
          | .low => s.P9OUT &&& not16 0x80
          | .normal => s.P9OUT ||| 0x80
          | .critical => if ta0 then s.P9OUT &&& not16 0x80 else s.P9OUT
          | .none => s.P9OUT) := by
  obtain ⟨r1, r2, r3, r4, r5⟩ := receiveStage_fields s rx
  obtain ⟨i1, i2, i3, i4, i5⟩ := indicatorStage_fields (receiveStage s rx)
  obtain ⟨p1, p2, p3, p4, p5⟩ := pollStage_fields (indicatorStage (receiveStage s rx)) ta0
  obtain ⟨d1, d2, d3, d4, d5⟩ :=
    doseStage_fields (pollStage (indicatorStage (receiveStage s rx)) ta0) ta1
  obtain ⟨e1, e2, e3, e4, e5, e6⟩ :=
    displayStage_fields (doseStage (pollStage (indicatorStage (receiveStage s rx)) ta0) ta1)
  obtain ⟨a1, a2, a3, a4, a5, a6⟩ := alertStage_fields
    (displayStage (doseStage (pollStage (indicatorStage (receiveStage s rx)) ta0) ta1))
  rw [e1, d1, p1, i1, r1] at a1
  rw [e1, e2, d1, d2, p1, p2, i1, i2, r1, r2] at a2
  rw [d1, p1, i1, r1] at e6
  rw [e3, d3, p3, i3, r3] at a3
  rw [e4, d4, p4, i4, i1, r1, r4] at a4
  rw [e5, d5, p5, i5, i1, r1, r5] at a5
  rw [e6] at a6
  unfold mainLoopPass
  rw [a1, a2, a3, a4, a5, a6]
  generalize heldMessage s rx = m
  refine ⟨rfl, ?_, rfl, rfl, ?_, ?_⟩
  · unfold mainLoopExclamation
    by_cases hff : m = 0xFF
    · subst hff
      simp
    · simp [hff]
  · unfold indicatorBranch
    by_cases h2 : m = 0x02 ∨ m = 0x89
    · rcases h2 with h | h <;> subst h <;> simp
    · by_cases h1 : m = 0x88 ∨ m = 0x01
      · rcases h1 with h | h <;> subst h <;> simp
      · by_cases h3 : m = 0x03 ∨ m = 0x8A
        · rcases h3 with h | h <;> subst h <;> simp
        · simp [h1, h2, h3]
  · unfold indicatorBranch
    by_cases h2 : m = 0x02 ∨ m = 0x89
    · rcases h2 with h | h <;> subst h <;> simp
    · by_cases h1 : m = 0x88 ∨ m = 0x01
      · rcases h1 with h | h <;> subst h <;> simp
      · by_cases h3 : m = 0x03 ∨ m = 0x8A
        · rcases h3 with h | h <;> subst h <;> simp
        · simp [h1, h2, h3]

theorem and_two_pow_ne_zero (y k : Nat) : (y &&& 2 ^ k != 0) = y.testBit k := by
  have h : y &&& 2 ^ k = if y.testBit k then 2 ^ k else 0 := by
    apply Nat.eq_of_testBit_eq
    intro i
    rw [Nat.testBit_and, Nat.testBit_two_pow]
    by_cases hi : k = i
    · subst hi
      cases hx : y.testBit k <;> simp [Nat.testBit_two_pow]
    · cases hx : y.testBit k <;> simp [hi, Nat.testBit_two_pow]
  rw [h]
  cases y.testBit k
  · simp
  · have : 2 ^ k ≠ 0 := Nat.pos_iff_ne_zero.mp (Nat.two_pow_pos k)
    simp [this]

/-- The red LED is bit 0 of `P1OUT`. -/
theorem red_eq_testBit (s : NodeB) : s.red = s.P1OUT.testBit 0 := by
  unfold NodeB.red BIT0
  exact and_two_pow_ne_zero s.P1OUT 0

/-- The green LED is bit 7 of `P9OUT`. -/
theorem green_eq_testBit (s : NodeB) : s.green = s.P9OUT.testBit 7 := by
  unfold NodeB.green
  exact and_two_pow_ne_zero s.P9OUT 7

/-- The LEDs after a pass, by the branch the held message selects. -/
theorem mainLoopPass_leds (s : NodeB) (rx : Option (Fin 256)) (ta0 ta1 : Bool) :
    (indicatorBranch (heldMessage s rx) = .normal →
      (mainLoopPass s rx ta0 ta1).green = true ∧ (mainLoopPass s rx ta0 ta1).red = false) ∧
    (indicatorBranch (heldMessage s rx) = .low →
      (mainLoopPass s rx ta0 ta1).red = true ∧ (mainLoopPass s rx ta0 ta1).green = false) ∧
    (indicatorBranch (heldMessage s rx) = .critical →
      (ta0 = true → (mainLoopPass s rx ta0 ta1).green = false ∧
        (mainLoopPass s rx ta0 ta1).red = !s.red) ∧
      (ta0 = false → (mainLoopPass s rx ta0 ta1).P1OUT = s.P1OUT ∧
        (mainLoopPass s rx ta0 ta1).P9OUT = s.P9OUT)) := by
  obtain ⟨-, -, -, -, f1, f9⟩ := mainLoopPass_fields s rx ta0 ta1
  rw [red_eq_testBit, green_eq_testBit, red_eq_testBit, f1, f9]
  have c1 : Nat.testBit BIT0 0 = true := by decide
  have c2 : Nat.testBit (not16 BIT0) 0 = false := by decide
  have c3 : Nat.testBit (not16 0x80) 7 = false := by decide
  have c4 : Nat.testBit 0x80 7 = true := by decide
  have c5 : Nat.testBit 1 0 = true := by decide
  refine ⟨fun h => ?_, fun h => ?_, fun h => ⟨fun ht => ?_, fun ht => ?_⟩⟩
  · rw [h]
    simp only [Nat.testBit_or, Nat.testBit_and, c2, c4, Bool.or_true, Bool.and_false, and_self]
  · rw [h]
    simp only [Nat.testBit_or, Nat.testBit_and, c1, c3, Bool.or_true, Bool.and_false, and_self]
  · rw [h, ht]
    simp only [if_true, Nat.testBit_xor, Nat.testBit_and, c3, c5, Bool.and_false,
      Bool.xor_true, and_self]
  · rw [h, ht]
    simp

/-- The status byte of a Node A state encodes its activity and its tier. -/
theorem statusTable_decode (level numPers : Int) :
    ((statusTable level numPers = 0x01 ∨ statusTable level numPers = 0x02 ∨
        statusTable level numPers = 0x03) ↔ numPers = 0) ∧
    (indicatorBranch (statusTable level numPers) = .normal ↔ 625 ≤ level) ∧
    (indicatorBranch (statusTable level numPers) = .low ↔ (125 ≤ level ∧ level < 625)) ∧
    (indicatorBranch (statusTable level numPers) = .critical ↔ level < 125) := by
  unfold statusTable indicatorBranch
  by_cases hn : numPers = 0 <;> by_cases h6 : 625 ≤ level <;> by_cases h1 : 125 ≤ level <;>
    simp [hn, h6, h1] <;> omega

/-- C12. Status round trip: for every Node A state (in particular those with
`0 ≤ level ≤ 1500` and `numPers ≥ 0`), when the byte Node A transmits in
reply to `0xFF` is the one Node B receives, the pass of Node B's main loop
shows `P OFF ` iff `numPers = 0` and ` P ON ` iff `numPers ≠ 0`, whatever the
level; it takes the normal branch (green on, red off) iff `level ≥ 625`, the
low branch (red on, green off) iff `125 ≤ level < 625`, and the critical
branch (on a 1 s tick green off and red toggled, otherwise LEDs untouched)
iff `level < 125`. -/
theorem status_round_trip (a : NodeA) (byte : Fin 256)
    (hb : (UART_ISR a 0xFF).tx = a.tx ++ [byte.val]) (b : NodeB) (ta0 ta1 : Bool) :
    ((mainLoopPass b (some byte) ta0 ta1).shown = ['P', ' ', 'O', 'F', 'F', ' '] ↔
      a.numPers = 0) ∧
    ((mainLoopPass b (some byte) ta0 ta1).shown = [' ', 'P', ' ', 'O', 'N', ' '] ↔
      a.numPers ≠ 0) ∧
    (indicatorBranch byte.val = .normal ↔ 625 ≤ a.level) ∧
    (indicatorBranch byte.val = .low ↔ (125 ≤ a.level ∧ a.level < 625)) ∧
    (indicatorBranch byte.val = .critical ↔ a.level < 125) ∧
    (625 ≤ a.level → (mainLoopPass b (some byte) ta0 ta1).green = true ∧
      (mainLoopPass b (some byte) ta0 ta1).red = false) ∧
    (125 ≤ a.level ∧ a.level < 625 → (mainLoopPass b (some byte) ta0 ta1).red = true ∧
      (mainLoopPass b (some byte) ta0 ta1).green = false) ∧
    (a.level < 125 →
      (ta0 = true → (mainLoopPass b (some byte) ta0 ta1).green = false ∧
        (mainLoopPass b (some byte) ta0 ta1).red = !b.red) ∧
      (ta0 = false → (mainLoopPass b (some byte) ta0 ta1).P1OUT = b.P1OUT ∧
        (mainLoopPass b (some byte) ta0 ta1).P9OUT = b.P9OUT)) := by
  have hbyte : byte.val = statusTable a.level a.numPers := by
    rw [(UART_ISR_query a).1] at hb
    have := List.append_cancel_left hb
    simpa using this.symm
  obtain ⟨d1, d2, d3, d4⟩ := statusTable_decode a.level a.numPers
  obtain ⟨-, -, fs, -⟩ := mainLoopPass_fields b (some byte) ta0 ta1
  obtain ⟨l1, l2, l3⟩ := mainLoopPass_leds b (some byte) ta0 ta1
  have hm : heldMessage b (some byte) = statusTable a.level a.numPers := hbyte
  rw [hm] at fs l1 l2 l3
  rw [hbyte, fs]
  refine ⟨?_, ?_, d2, d3, d4, fun h => l1 (d2.mpr h), fun h => l2 (d3.mpr h),
    fun h => l3 (d4.mpr h)⟩
  · by_cases h : a.numPers = 0
    · rw [if_pos (d1.mpr h)]
      exact ⟨fun _ => h, fun _ => rfl⟩
    · rw [if_neg (mt d1.mp h)]
      exact ⟨fun hc => absurd hc (by decide), fun hc => absurd hc h⟩
  · by_cases h : a.numPers = 0
    · rw [if_pos (d1.mpr h)]
      exact ⟨fun hc => absurd hc (by decide), fun hc => absurd h hc⟩
    · rw [if_neg (mt d1.mp h)]
      exact ⟨fun _ => h, fun _ => rfl⟩

/-- Witness for `status_round_trip`: Node A pumping at `level = 1400` answers
`0x88`, which Node B shows as ` P ON ` with the green LED. -/
theorem status_round_trip_witness :
    (UART_ISR { powerOn with level := 1400, numPers := 200 } 0xFF).tx
      = ({ powerOn with level := 1400, numPers := 200 } : NodeA).tx ++ [(0x88 : Fin 256).val] ∧
    (mainLoopPass powerOnB (some 0x88) true false).green = true ∧
    (mainLoopPass powerOnB (some 0x88) true false).red = false :=
  ⟨by decide,
    (status_round_trip { powerOn with level := 1400, numPers := 200 } 0x88 (by decide)
      powerOnB true false).2.2.2.2.2.1 (by decide)⟩

/-- C13 (counterexample). After a pass holding the alert byte `0xFF` has set
the exclamation symbol, a pass holding the low-tier status byte `0x02`, or
`0x89`, leaves it set. -/
theorem exclamation_kept_on_low_status :
    (mainLoopPass powerOnB (some 0xFF) false false).exclamation = true ∧
    (mainLoopPass (mainLoopPass powerOnB (some 0xFF) false false) (some 0x02) false
      false).exclamation = true ∧
    (mainLoopPass (mainLoopPass powerOnB (some 0xFF) false false) (some 0x89) true
      false).exclamation = true := by
  refine ⟨?_, ?_, ?_⟩
  · rw [(mainLoopPass_fields _ _ _ _).2.1]
    decide
  · rw [(mainLoopPass_fields _ _ _ _).2.1, (mainLoopPass_fields _ _ _ _).2.1]
    decide
  · rw [(mainLoopPass_fields _ _ _ _).2.1, (mainLoopPass_fields _ _ _ _).2.1]
    decide

/-- C13 (amended). A pass of the main loop whose message is the alert byte
`0xFF` sets the exclamation symbol; a pass whose message is a normal-tier
status byte (`0x01`, `0x88`) clears it; a pass whose message is a low-tier
(`0x02`, `0x89`) or critical-tier (`0x03`, `0x8A`) status byte leaves it as
it was. -/
theorem exclamation_overlay (s : NodeB) (rx : Option (Fin 256)) (ta0 ta1 : Bool) :
    (heldMessage s rx = 0xFF → (mainLoopPass s rx ta0 ta1).exclamation = true) ∧
    (heldMessage s rx = 0x01 ∨ heldMessage s rx = 0x88 →
      (mainLoopPass s rx ta0 ta1).exclamation = false) ∧
    (heldMessage s rx = 0x02 ∨ heldMessage s rx = 0x89 ∨ heldMessage s rx = 0x03 ∨
        heldMessage s rx = 0x8A →
      (mainLoopPass s rx ta0 ta1).exclamation = s.exclamation) := by
  rw [(mainLoopPass_fields s rx ta0 ta1).2.1]
  generalize heldMessage s rx = m
  unfold mainLoopExclamation
  refine ⟨fun h => ?_, fun h => ?_, fun h => ?_⟩
  · subst h
    simp
  · rcases h with h | h <;> subst h <;> simp
  · rcases h with h | h | h | h <;> subst h <;> simp

/-- The automatic dose byte `0x14`, received with at least 20 units left and
no overflow of the pending count, adds 40 pump periods. -/
theorem auto_dose_adds_40 (s : NodeA) (hl : 20 ≤ s.level) (hl2 : s.level ≤ 32767)
    (hn : -32768 ≤ s.numPers) (hn2 : s.numPers + 40 ≤ 32767) :
    (UART_ISR s 0x14).numPers = s.numPers + 40 ∧ (UART_ISR s 0x14).level = s.level - 20 := by
  have hv : (((0x14 : Fin 256).val : Nat) : Int) = 20 := by decide
  have hmin : min (((0x14 : Fin 256).val : Nat) : Int) s.level = 20 := by
    rw [hv]
    exact min_eq_left hl
  obtain ⟨fl, -, fn⟩ := dose_accounting_in_range s 0x14 (by decide) (by decide) (by omega)
    hl2 hn (by rw [hmin]; omega)
  rw [hmin] at fl fn
  exact ⟨by rw [fn]; norm_num, fl⟩

/-- C14 (failing input). On its 60 s flag Node B sends `0x14`; received by
Node A at power-on (`level = 1500 ≥ 20`, `numPers = 0`) it adds 40 pump
periods of 20 ms (0.8 s), not the 28 periods that make 0.56 s. -/
theorem auto_dose_calibration :
    (mainLoopPass powerOnB none false true).tx = [0x14] ∧
    (UART_ISR powerOn 0x14).numPers = powerOn.numPers + 40 ∧
    (UART_ISR powerOn 0x14).numPers ≠ powerOn.numPers + 28 ∧
    (UART_ISR powerOn 0x0E).numPers = powerOn.numPers + 28 := by
  refine ⟨?_, by decide, by decide, by decide⟩
  rw [(mainLoopPass_fields _ _ _ _).2.2.2.1]
  decide

/-! ## A clamped dose is announced -/

/-- C6. A clamped dose is always announced: for a dose request `b` in
`1..125` arriving at `0 ≤ level < b`, the handler appends the alert byte
`0xFF` to the transmit log (and delivers only what is left), and a pass of
Node B's main loop that receives that byte leaves the exclamation symbol
set, whatever Node B's state and timer flags. -/
theorem clamped_dose_alerts (s : NodeA) (b : Fin 256) (h1 : 1 ≤ b.val) (h2 : b.val ≤ 125)
    (h0 : 0 ≤ s.level) (hlt : s.level < (b.val : Int)) :
    (UART_ISR s b).tx = s.tx ++ [0xFF] ∧
    (UART_ISR s b).level = 0 ∧
    (UART_ISR s b).numPers = wrap16 (s.numPers + 2 * s.level) ∧
    (∀ (sb : NodeB) (ta0 ta1 : Bool),
      (mainLoopPass sb (some 0xFF) ta0 ta1).exclamation = true) ∧
    (∀ (byte : Fin 256), (UART_ISR s b).tx = s.tx ++ [byte.val] →
      ∀ (sb : NodeB) (ta0 ta1 : Bool),
        (mainLoopPass sb (some byte) ta0 ta1).exclamation = true) := by
  obtain ⟨hlev, hnum, ht, -⟩ := UART_ISR_dose s b h1 h2
  have h2i : (b.val : Int) ≤ 125 := by exact_mod_cast h2
  have hl : s.level ≤ 125 := by omega
  have htx : (UART_ISR s b).tx = s.tx ++ [0xFF] := by simpa [hl] using ht
  have hpass : ∀ (sb : NodeB) (ta0 ta1 : Bool),
      (mainLoopPass sb (some 0xFF) ta0 ta1).exclamation = true := by
    intro sb ta0 ta1
    rw [(mainLoopPass_fields sb (some 0xFF) ta0 ta1).2.1]
    show mainLoopExclamation 0xFF sb.exclamation = true
    simp [mainLoopExclamation]
  refine ⟨htx, ?_, ?_, hpass, ?_⟩
  · rw [hlev, min_eq_right (le_of_lt hlt)]
    simp [wrap16]
  · rw [hnum, min_eq_right (le_of_lt hlt), wrap16_eq_self (x := 2 * s.level)]
    unfold isInt16
    omega
  · intro byte hbyte sb ta0 ta1
    rw [htx] at hbyte
    have hv : byte.val = 0xFF := by
      have := List.append_cancel_left hbyte
      simpa using this.symm
    have hb : byte = 0xFF := Fin.ext hv
    rw [hb]
    exact hpass sb ta0 ta1

/-- Witness for `clamped_dose_alerts`: 100 units requested with 80 left; the
alert byte is sent, and Node B's pass on it sets the exclamation symbol. -/
theorem clamped_dose_alerts_witness :
    (UART_ISR { powerOn with level := 80 } 100).tx = [0xFF] ∧
    (UART_ISR { powerOn with level := 80 } 100).level = 0 ∧
    (mainLoopPass powerOnB (some 0xFF) true false).exclamation = true :=
  ⟨(clamped_dose_alerts { powerOn with level := 80 } 100 (by decide) (by decide)
      (by decide) (by decide)).1,
   (clamped_dose_alerts { powerOn with level := 80 } 100 (by decide) (by decide)
      (by decide) (by decide)).2.1,
   (clamped_dose_alerts { powerOn with level := 80 } 100 (by decide) (by decide)
      (by decide) (by decide)).2.2.2.1 powerOnB true false⟩

end Insulin
